import Mathlib

/-!
# Verification of the Potato-Clock timer/mode state machine and markdown archive

This file gives a shallow embedding of the timer logic found in `src/App.tsx`
(the `App` component's state, its 1-second tick effect, the micro-break
scheduler, and the event handlers) together with the markdown archive
functions from `src/utils/markdown.ts`, and proves or refutes the frozen
claims about them.

Modelling conventions:
* React state (`useState`) and refs (`useRef`) are collected into one
  `AppState` record; each event handler (plus the effects it re-triggers)
  becomes a pure function `AppState → AppState` additionally parameterised by
  the current `Settings`, the wall clock `now : ℕ` (`Date.now()`, in
  milliseconds), and the draws of `Math.random()` as rationals `q ∈ [0,1)`.
* The `useEffect` at App.tsx:429-436 (which re-runs `scheduleNextMicroBreak`
  whenever `mode`, `isActive` or the settings object change) is modelled by
  `microBreakRescheduleEffect`; events that can change those dependencies
  apply it after their own updates, mirroring React's commit-then-effects
  order.  `applyRescheduleEffect old new` applies it exactly when the
  dependencies `mode`/`isActive` changed relative to the pre-event state
  (during ticks the settings object is unchanged, so those are the only
  dependencies that can change).
* Inside the interval callback (App.tsx:513-530) the captured `mode`,
  `timeRemaining` and `switchMode` are the values of the render that created
  the interval, i.e. the pre-tick values; `setTimeRemaining (prev => prev-1)`
  is a functional update.  In particular, when a micro-break preempts,
  `switchMode` snapshots the pre-decrement `timeRemaining`, and the queued
  decrement is overwritten by `setTimeRemaining(getDurationForMode(newMode))`.
* JavaScript truthiness tests on the refs (`if (ref.current)`) are modelled
  by `optTruthy` (`some 0` is falsy).
* Audio (`playSound`, background music) and the overlay video are external
  side effects with no influence on the timer state and are not modelled;
  `showMicroBreakOverlay` is kept since a claim mentions it.  Fields of
  `Settings` that only parameterise audio/appearance (volumes, colors,
  soundPaths, ...) are omitted: none of the modelled code reads them.
-/

/-- The `TimerMode` enum from `src/types.ts`. -/
inductive TimerMode where
  | WORK
  | SHORT_BREAK
  | MICRO_BREAK
deriving DecidableEq, Repr

/-- The timer-relevant fields of `Settings` from `src/types.ts`
(durations in minutes, `microBreakDuration` in seconds, intervals in
minutes). -/
structure Settings where
  workDuration : Nat
  breakDuration : Nat
  microBreakDuration : Nat
  microBreakMinInterval : Nat
  microBreakMaxInterval : Nat
  enableMicroBreaks : Bool
  autoStartBreak : Bool
  autoStartWork : Bool
deriving DecidableEq, Repr

/-- The `DailyLog` record from `src/types.ts`. -/
structure DailyLog where
  date : String
  secondsWorked : Nat
  tasksCompleted : Option Nat := none
deriving DecidableEq, Repr

/-- The timer-relevant component state of `App` (`useState` hooks and
`useRef` refs), App.tsx:101-122. -/
structure AppState where
  mode : TimerMode
  timeRemaining : Nat
  isActive : Bool
  showMicroBreakOverlay : Bool
  nextMicroBreakTime : Option Nat
  microBreakRemaining : Option Nat
  workTimeSnapshot : Option Nat
  logs : List DailyLog
deriving DecidableEq, Repr

/-- JavaScript truthiness of a nullable number (`0` and `null` are falsy),
used for the `if (ref.current)` tests on the micro-break refs. -/
def optTruthy : Option Nat → Bool
  | none => false
  | some n => n ≠ 0

/-- Function `getDurationForMode`, App.tsx:405-412 (the `default: return 0` branch is
unreachable over the three-constructor enum). -/
def getDurationForMode (settings : Settings) : TimerMode → Nat
  | .WORK => settings.workDuration * 60
  | .SHORT_BREAK => settings.breakDuration * 60
  | .MICRO_BREAK => settings.microBreakDuration

/-- The draw `Math.floor(Math.random() * (safeMax - safeMin + 1)) + safeMin`
of `scheduleNextMicroBreak`, App.tsx:420-424, with `q` standing for the
`Math.random()` result. -/
def randomSeconds (settings : Settings) (q : ℚ) : Nat :=
  let mn := settings.microBreakMinInterval * 60
  let mx := settings.microBreakMaxInterval * 60
  let safeMin := Nat.min mn mx
  let safeMax := Nat.max mn mx
  (⌊q * ((safeMax : ℚ) - (safeMin : ℚ) + 1)⌋).toNat + safeMin

/-- Function `scheduleNextMicroBreak`, App.tsx:414-427. -/
def scheduleNextMicroBreak (settings : Settings) (now : Nat) (q : ℚ)
    (s : AppState) : AppState :=
  if !settings.enableMicroBreaks then
    { s with nextMicroBreakTime := none, microBreakRemaining := none }
  else
    let r := randomSeconds settings q * 1000
    { s with microBreakRemaining := some r, nextMicroBreakTime := some (now + r) }

/-- The `useEffect` at App.tsx:429-436: reschedule when working and active
with micro-breaks enabled, clear the refs when micro-breaks are disabled. -/
def microBreakRescheduleEffect (settings : Settings) (now : Nat) (q : ℚ)
    (s : AppState) : AppState :=
  if s.mode = .WORK ∧ s.isActive = true ∧ settings.enableMicroBreaks = true then
    scheduleNextMicroBreak settings now q s
  else if !settings.enableMicroBreaks then
    { s with nextMicroBreakTime := none, microBreakRemaining := none }
  else s

/-- Run `microBreakRescheduleEffect` exactly when its React dependencies
`mode`/`isActive` changed from `old` to `new` (the settings object is
unchanged during the events this is used for). -/
def applyRescheduleEffect (settings : Settings) (now : Nat) (q : ℚ)
    (old new : AppState) : AppState :=
  if new.mode = old.mode ∧ new.isActive = old.isActive then new
  else microBreakRescheduleEffect settings now q new

/-- Function `switchMode`, App.tsx:438-475 (`stopBackgroundMusic` and the audio side
effects are external).  `q` is the random draw consumed when the new mode is
`WORK` (via `scheduleNextMicroBreak`). -/
def switchMode (settings : Settings) (now : Nat) (q : ℚ) (newMode : TimerMode)
    (manualTrigger : Bool) (s : AppState) : AppState :=
  let snap :=
    if s.mode = .WORK ∧ newMode = .MICRO_BREAK then some s.timeRemaining
    else s.workTimeSnapshot
  let returningFromMicroBreak := s.mode = .MICRO_BREAK ∧ newMode = .WORK
  let s₁ :=
    if returningFromMicroBreak ∧ snap ≠ none then
      { s with mode := newMode, timeRemaining := snap.getD 0,
               workTimeSnapshot := none }
    else
      { s with mode := newMode,
               timeRemaining := getDurationForMode settings newMode,
               workTimeSnapshot := snap }
  match newMode with
  | .WORK =>
    let s₂ := scheduleNextMicroBreak settings now q s₁
    if returningFromMicroBreak then { s₂ with isActive := true }
    else if settings.autoStartWork && !manualTrigger then { s₂ with isActive := true }
    else { s₂ with isActive := false }
  | .SHORT_BREAK =>
    if settings.autoStartBreak && !manualTrigger then { s₁ with isActive := true }
    else { s₁ with isActive := false }
  | .MICRO_BREAK =>
    { s₁ with showMicroBreakOverlay := true, isActive := true }

/-- Function `recordWorkTime`, App.tsx:498-510: update the first log entry for
`today` in place (`findIndex` + `+=`), or append a fresh record. -/
def recordWorkTime (today : String) (seconds : Nat) :
    List DailyLog → List DailyLog
  | [] => [{ date := today, secondsWorked := seconds }]
  | l :: ls =>
    if l.date = today then
      { l with secondsWorked := l.secondsWorked + seconds } :: ls
    else
      l :: recordWorkTime today seconds ls

/-- The micro-break due test inside the interval callback, App.tsx:518-519:
`mode === WORK && settings.enableMicroBreaks && nextMicroBreakTimeRef.current
&& Date.now() >= nextMicroBreakTimeRef.current`. -/
def microDue (settings : Settings) (now : Nat) (s : AppState) : Bool :=
  s.mode = .WORK && settings.enableMicroBreaks && optTruthy s.nextMicroBreakTime
    && (s.nextMicroBreakTime.getD 0 ≤ now)

/-- One firing of the main tick effect, App.tsx:513-550, followed by the
reschedule effect if the tick changed its dependencies.

While `isActive && timeRemaining > 0` the interval callback runs: decrement
(functional update), then, if the micro-break is due, clear the refs and call
`switchMode(MICRO_BREAK)` — whose closure still sees the pre-decrement
`timeRemaining` (that stale value becomes the work snapshot) and whose
`setTimeRemaining` overwrites the queued decrement — then `recordWorkTime(1)`
if the (captured) mode is `WORK`.  When instead `timeRemaining === 0 &&
isActive`, the end-of-countdown branch deactivates and switches mode.
`q₁` feeds a `scheduleNextMicroBreak` performed by `switchMode` itself,
`q₂` the one performed by the reschedule effect afterwards. -/
def tick (settings : Settings) (today : String) (now : Nat) (q₁ q₂ : ℚ)
    (s : AppState) : AppState :=
  let s' :=
    if s.isActive = true ∧ 0 < s.timeRemaining then
      let afterSwitch :=
        if microDue settings now s then
          switchMode settings now q₁ .MICRO_BREAK false
            { s with nextMicroBreakTime := none, microBreakRemaining := none }
        else
          { s with timeRemaining := s.timeRemaining - 1 }
      if s.mode = .WORK then
        { afterSwitch with logs := recordWorkTime today 1 afterSwitch.logs }
      else afterSwitch
    else if s.timeRemaining = 0 ∧ s.isActive = true then
      match s.mode with
      | .WORK => switchMode settings now q₁ .SHORT_BREAK false
          { s with isActive := false }
      | .SHORT_BREAK => switchMode settings now q₁ .WORK false
          { s with isActive := false }
      | .MICRO_BREAK => switchMode settings now q₁ .WORK false
          { s with isActive := false, showMicroBreakOverlay := false }
    else s
  applyRescheduleEffect settings now q₂ s s'

/-- Handler `toggleTimer`, App.tsx:553-569, followed by the reschedule effect (its
`isActive` dependency always flips).  `q₁` feeds the `scheduleNextMicroBreak`
possibly called inside the handler, `q₂` the effect's call. -/
def toggleTimer (settings : Settings) (now : Nat) (q₁ q₂ : ℚ)
    (s : AppState) : AppState :=
  let s₁ :=
    if s.isActive = false then
      if s.mode = .WORK ∧ optTruthy s.microBreakRemaining = true then
        { s with nextMicroBreakTime := some (now + s.microBreakRemaining.getD 0) }
      else if s.mode = .WORK ∧ optTruthy s.nextMicroBreakTime = false then
        scheduleNextMicroBreak settings now q₁ s
      else s
    else
      if s.mode = .WORK ∧ optTruthy s.nextMicroBreakTime = true then
        { s with
            microBreakRemaining := some (s.nextMicroBreakTime.getD 0 - now),
            nextMicroBreakTime := none }
      else s
  let s₂ := { s₁ with isActive := !s.isActive }
  microBreakRescheduleEffect settings now q₂ s₂

/-- Handler `resetTimer`, App.tsx:571-580, followed by the reschedule effect (a
no-op here since the result is inactive with cleared refs, but applied for
faithfulness when the dependencies changed). -/
def resetTimer (settings : Settings) (now : Nat) (q : ℚ)
    (s : AppState) : AppState :=
  let s₁ : AppState :=
    { mode := .WORK
      timeRemaining := settings.workDuration * 60
      isActive := false
      showMicroBreakOverlay := false
      nextMicroBreakTime := none
      microBreakRemaining := none
      workTimeSnapshot := none
      logs := s.logs }
  applyRescheduleEffect settings now q s s₁

/-- Handler `skipMicroBreak`, App.tsx:582-586, followed by the reschedule effect. -/
def skipMicroBreak (settings : Settings) (now : Nat) (q₁ q₂ : ℚ)
    (s : AppState) : AppState :=
  let s₁ := switchMode settings now q₁ .WORK false
    { s with showMicroBreakOverlay := false }
  applyRescheduleEffect settings now q₂ s s₁

/-- The `SettingsModal` `onSave` handler, App.tsx:851-863, followed by the
reschedule effect (which always re-runs after a save: `setSettings` gives
`scheduleNextMicroBreak` a new identity). -/
def settingsSaved (oldSettings newSettings : Settings) (now : Nat) (q : ℚ)
    (s : AppState) : AppState :=
  let s₁ :=
    if s.mode = .WORK ∧ oldSettings.workDuration ≠ newSettings.workDuration then
      { s with timeRemaining := newSettings.workDuration * 60, isActive := false }
    else if s.mode = .SHORT_BREAK ∧
        oldSettings.breakDuration ≠ newSettings.breakDuration then
      { s with timeRemaining := newSettings.breakDuration * 60, isActive := false }
    else s
  microBreakRescheduleEffect newSettings now q s₁

/-- Iterate `tick` over a list of `(now, q₁, q₂)` tick parameters. -/
def runTicks (settings : Settings) (today : String)
    (events : List (Nat × ℚ × ℚ)) (s : AppState) : AppState :=
  events.foldl (fun st e => tick settings today e.1 e.2.1 e.2.2 st) s

/-- Seconds recorded for a given date: the first matching ledger record's
`secondsWorked`, or `0` when absent. -/
def todaySeconds (today : String) (logs : List DailyLog) : Nat :=
  match logs.find? (fun l => l.date = today) with
  | some l => l.secondsWorked
  | none => 0

/-- The micro-break schedule is empty (both refs `null`). -/
def schedEmpty (s : AppState) : Prop :=
  s.nextMicroBreakTime = none ∧ s.microBreakRemaining = none

/-! ## Frame lemmas: the scheduler functions only touch the two micro-break
refs, never the mode/countdown/activity/snapshot/log fields. -/

@[simp]
theorem scheduleNextMicroBreak_mode (settings : Settings) (now : Nat) (q : ℚ)
    (s : AppState) : (scheduleNextMicroBreak settings now q s).mode = s.mode := by
  unfold scheduleNextMicroBreak; split <;> rfl

@[simp]
theorem scheduleNextMicroBreak_timeRemaining (settings : Settings) (now : Nat)
    (q : ℚ) (s : AppState) :
    (scheduleNextMicroBreak settings now q s).timeRemaining = s.timeRemaining := by
  unfold scheduleNextMicroBreak; split <;> rfl

@[simp]
theorem scheduleNextMicroBreak_isActive (settings : Settings) (now : Nat)
    (q : ℚ) (s : AppState) :
    (scheduleNextMicroBreak settings now q s).isActive = s.isActive := by
  unfold scheduleNextMicroBreak; split <;> rfl

@[simp]
theorem scheduleNextMicroBreak_overlay (settings : Settings) (now : Nat)
    (q : ℚ) (s : AppState) :
    (scheduleNextMicroBreak settings now q s).showMicroBreakOverlay
      = s.showMicroBreakOverlay := by
  unfold scheduleNextMicroBreak; split <;> rfl

@[simp]
theorem scheduleNextMicroBreak_snapshot (settings : Settings) (now : Nat)
    (q : ℚ) (s : AppState) :
    (scheduleNextMicroBreak settings now q s).workTimeSnapshot
      = s.workTimeSnapshot := by
  unfold scheduleNextMicroBreak; split <;> rfl

@[simp]
theorem scheduleNextMicroBreak_logs (settings : Settings) (now : Nat)
    (q : ℚ) (s : AppState) :
    (scheduleNextMicroBreak settings now q s).logs = s.logs := by
  unfold scheduleNextMicroBreak; split <;> rfl

@[simp]
theorem microBreakRescheduleEffect_mode (settings : Settings) (now : Nat)
    (q : ℚ) (s : AppState) :
    (microBreakRescheduleEffect settings now q s).mode = s.mode := by
  unfold microBreakRescheduleEffect; split_ifs <;> simp

@[simp]
theorem microBreakRescheduleEffect_timeRemaining (settings : Settings)
    (now : Nat) (q : ℚ) (s : AppState) :
    (microBreakRescheduleEffect settings now q s).timeRemaining
      = s.timeRemaining := by
  unfold microBreakRescheduleEffect; split_ifs <;> simp

@[simp]
theorem microBreakRescheduleEffect_isActive (settings : Settings) (now : Nat)
    (q : ℚ) (s : AppState) :
    (microBreakRescheduleEffect settings now q s).isActive = s.isActive := by
  unfold microBreakRescheduleEffect; split_ifs <;> simp

@[simp]
theorem microBreakRescheduleEffect_overlay (settings : Settings) (now : Nat)
    (q : ℚ) (s : AppState) :
    (microBreakRescheduleEffect settings now q s).showMicroBreakOverlay
      = s.showMicroBreakOverlay := by
  unfold microBreakRescheduleEffect; split_ifs <;> simp

@[simp]
theorem microBreakRescheduleEffect_snapshot (settings : Settings) (now : Nat)
    (q : ℚ) (s : AppState) :
    (microBreakRescheduleEffect settings now q s).workTimeSnapshot
      = s.workTimeSnapshot := by
  unfold microBreakRescheduleEffect; split_ifs <;> simp

@[simp]
theorem microBreakRescheduleEffect_logs (settings : Settings) (now : Nat)
    (q : ℚ) (s : AppState) :
    (microBreakRescheduleEffect settings now q s).logs = s.logs := by
  unfold microBreakRescheduleEffect; split_ifs <;> simp

@[simp]
theorem applyRescheduleEffect_mode (settings : Settings) (now : Nat) (q : ℚ)
    (old s : AppState) :
    (applyRescheduleEffect settings now q old s).mode = s.mode := by
  unfold applyRescheduleEffect; split_ifs <;> simp

@[simp]
theorem applyRescheduleEffect_timeRemaining (settings : Settings) (now : Nat)
    (q : ℚ) (old s : AppState) :
    (applyRescheduleEffect settings now q old s).timeRemaining
      = s.timeRemaining := by
  unfold applyRescheduleEffect; split_ifs <;> simp

@[simp]
theorem applyRescheduleEffect_isActive (settings : Settings) (now : Nat)
    (q : ℚ) (old s : AppState) :
    (applyRescheduleEffect settings now q old s).isActive = s.isActive := by
  unfold applyRescheduleEffect; split_ifs <;> simp

@[simp]
theorem applyRescheduleEffect_overlay (settings : Settings) (now : Nat)
    (q : ℚ) (old s : AppState) :
    (applyRescheduleEffect settings now q old s).showMicroBreakOverlay
      = s.showMicroBreakOverlay := by
  unfold applyRescheduleEffect; split_ifs <;> simp

@[simp]
theorem applyRescheduleEffect_snapshot (settings : Settings) (now : Nat)
    (q : ℚ) (old s : AppState) :
    (applyRescheduleEffect settings now q old s).workTimeSnapshot
      = s.workTimeSnapshot := by
  unfold applyRescheduleEffect; split_ifs <;> simp

@[simp]
theorem applyRescheduleEffect_logs (settings : Settings) (now : Nat) (q : ℚ)
    (old s : AppState) :
    (applyRescheduleEffect settings now q old s).logs = s.logs := by
  unfold applyRescheduleEffect; split_ifs <;> simp

/-! ## Ledger lemmas -/

/-- Today's total grows by exactly the amount recorded. -/
theorem todaySeconds_recordWorkTime (today : String) (k : Nat)
    (logs : List DailyLog) :
    todaySeconds today (recordWorkTime today k logs)
      = todaySeconds today logs + k := by
  induction logs with
  | nil => simp [recordWorkTime, todaySeconds]
  | cons l ls ih =>
    by_cases h : l.date = today
    · simp [recordWorkTime, todaySeconds, h, List.find?]
    · simp only [recordWorkTime, if_neg h]
      simpa [todaySeconds, List.find?, h] using ih

/-- Lemma: `recordWorkTime` never removes a record and never decreases a record. -/
theorem recordWorkTime_preserves (today : String) (k : Nat)
    (logs : List DailyLog) :
    ∀ l ∈ logs, ∃ l' ∈ recordWorkTime today k logs,
      l'.date = l.date ∧ l.secondsWorked ≤ l'.secondsWorked := by
  induction logs with
  | nil => simp
  | cons x ls ih =>
    intro l hl
    by_cases h : x.date = today
    · simp only [recordWorkTime, if_pos h]
      rcases List.mem_cons.mp hl with rfl | hmem
      · exact ⟨{ l with secondsWorked := l.secondsWorked + k },
          List.mem_cons_self _ _, rfl, Nat.le_add_right _ _⟩
      · exact ⟨l, List.mem_cons_of_mem _ hmem, rfl, le_refl _⟩
    · simp only [recordWorkTime, if_neg h]
      rcases List.mem_cons.mp hl with rfl | hmem
      · exact ⟨l, List.mem_cons_self _ _, rfl, le_refl _⟩
      · obtain ⟨l', hl', hd, hle⟩ := ih l hmem
        exact ⟨l', List.mem_cons_of_mem _ hl', hd, hle⟩

/-- The ledger transformation performed by `n` consecutive work ticks
(each tick calls `recordWorkTime today 1`). -/
def recordTicks (today : String) : Nat → List DailyLog → List DailyLog
  | 0, logs => logs
  | n + 1, logs => recordTicks today n (recordWorkTime today 1 logs)

theorem todaySeconds_recordTicks (today : String) (n : Nat)
    (logs : List DailyLog) :
    todaySeconds today (recordTicks today n logs)
      = todaySeconds today logs + n := by
  induction n generalizing logs with
  | zero => simp [recordTicks]
  | succ n ih =>
    simp [recordTicks, ih, todaySeconds_recordWorkTime]
    omega

/-! ## Tick characterisation lemmas -/

/-- A plain work tick: active, time left, micro-break not due.  The state
just decrements the countdown and records one second of work. -/
theorem tick_work_plain (settings : Settings) (today : String) (now : Nat)
    (q₁ q₂ : ℚ) (s : AppState)
    (hmode : s.mode = .WORK) (hact : s.isActive = true)
    (htr : 0 < s.timeRemaining) (hdue : microDue settings now s = false) :
    tick settings today now q₁ q₂ s =
      { s with timeRemaining := s.timeRemaining - 1,
               logs := recordWorkTime today 1 s.logs } := by
  unfold tick applyRescheduleEffect
  simp [hact, htr, hdue, hmode]

/-- Ticks in modes other than `WORK` with time left just decrement. -/
theorem tick_nonwork_plain (settings : Settings) (today : String) (now : Nat)
    (q₁ q₂ : ℚ) (s : AppState)
    (hmode : s.mode ≠ .WORK) (hact : s.isActive = true)
    (htr : 0 < s.timeRemaining) :
    tick settings today now q₁ q₂ s =
      { s with timeRemaining := s.timeRemaining - 1 } := by
  unfold tick applyRescheduleEffect
  simp [hact, htr, hmode, microDue]

/-- Iterating plain work ticks (never due): the countdown decreases by one
per tick and one second per tick is recorded, everything else untouched. -/
theorem runTicks_work (settings : Settings) (today : String) :
    ∀ (events : List (Nat × ℚ × ℚ)) (s : AppState),
      s.mode = .WORK → s.isActive = true →
      events.length ≤ s.timeRemaining →
      (∀ e ∈ events, microDue settings e.1 s = false) →
      runTicks settings today events s =
        { s with timeRemaining := s.timeRemaining - events.length,
                 logs := recordTicks today events.length s.logs } := by
  intro events
  induction events with
  | nil =>
    intro s _ _ _ _
    simp [runTicks, recordTicks]
  | cons e es ih =>
    intro s hmode hact hlen hdue
    have hlen' : es.length + 1 ≤ s.timeRemaining := by
      simpa using hlen
    have htr : 0 < s.timeRemaining := by omega
    have hstep := tick_work_plain settings today e.1 e.2.1 e.2.2 s hmode hact
      htr (hdue e (List.mem_cons_self _ _))
    have hrun : runTicks settings today (e :: es) s
        = runTicks settings today es (tick settings today e.1 e.2.1 e.2.2 s) := by
      simp [runTicks]
    rw [hrun, hstep]
    rw [ih _ (by simp [hmode]) (by simp [hact]) (by simp; omega)
      (by intro e' he'; have := hdue e' (List.mem_cons_of_mem _ he');
          simpa [microDue] using this)]
    simp [recordTicks]
    omega

/-- The reschedule effect leaves the refs of an inactive state with empty
schedule empty. -/
theorem applyRescheduleEffect_inactive_refs (settings : Settings) (now : Nat)
    (q : ℚ) (old s : AppState) (hact : s.isActive = false)
    (h1 : s.nextMicroBreakTime = none) (h2 : s.microBreakRemaining = none) :
    (applyRescheduleEffect settings now q old s).nextMicroBreakTime = none ∧
    (applyRescheduleEffect settings now q old s).microBreakRemaining = none := by
  unfold applyRescheduleEffect microBreakRescheduleEffect scheduleNextMicroBreak
  split_ifs <;> simp_all

/-!  ## The claims  -/

/-- Claim C9: `getDurationForMode` is a pure function of mode and settings:
`workMinutes*60` for Work, `breakMinutes*60` for ShortBreak, and
`microBreakSeconds` (already in seconds) for MicroBreak. -/
theorem claim_C9 (settings : Settings) :
    getDurationForMode settings .WORK = settings.workDuration * 60 ∧
    getDurationForMode settings .SHORT_BREAK = settings.breakDuration * 60 ∧
    getDurationForMode settings .MICRO_BREAK = settings.microBreakDuration :=
  ⟨rfl, rfl, rfl⟩

/-- Claim C8: from every state, `resetTimer` yields Work, paused, with the
full work duration, cleared snapshot and schedule, and hidden overlay. -/
theorem claim_C8 (settings : Settings) (now : Nat) (q : ℚ) (s : AppState) :
    (resetTimer settings now q s).mode = .WORK ∧
    (resetTimer settings now q s).isActive = false ∧
    (resetTimer settings now q s).timeRemaining
      = getDurationForMode settings .WORK ∧
    (resetTimer settings now q s).workTimeSnapshot = none ∧
    (resetTimer settings now q s).nextMicroBreakTime = none ∧
    (resetTimer settings now q s).microBreakRemaining = none ∧
    (resetTimer settings now q s).showMicroBreakOverlay = false := by
  have hrefs := applyRescheduleEffect_inactive_refs settings now q s
    ⟨.WORK, settings.workDuration * 60, false, false, none, none, none, s.logs⟩
    rfl rfl rfl
  exact ⟨by simp [resetTimer], by simp [resetTimer],
    by simp [resetTimer, getDurationForMode], by simp [resetTimer],
    hrefs.1, hrefs.2, by simp [resetTimer]⟩

/-- Claim C7, counterexample: the claim "for every mode … isActive
forced to false and timeRemaining set to the new duration" fails in
`MICRO_BREAK` mode: changing `microBreakDuration` from 10 to 20 while a
micro-break with 5s left is running leaves the state untouched (the
`onSave` handler only handles `WORK` and `SHORT_BREAK`). -/
theorem claim_C7_counterexample :
    ((settingsSaved ⟨25, 5, 10, 3, 5, true, true, false⟩
        ⟨25, 5, 20, 3, 5, true, true, false⟩ 1000 0
        ⟨.MICRO_BREAK, 5, true, true, none, none, some 100, []⟩).mode
      = .MICRO_BREAK) ∧
    ((settingsSaved ⟨25, 5, 10, 3, 5, true, true, false⟩
        ⟨25, 5, 20, 3, 5, true, true, false⟩ 1000 0
        ⟨.MICRO_BREAK, 5, true, true, none, none, some 100, []⟩).timeRemaining
      = 5) ∧
    ((settingsSaved ⟨25, 5, 10, 3, 5, true, true, false⟩
        ⟨25, 5, 20, 3, 5, true, true, false⟩ 1000 0
        ⟨.MICRO_BREAK, 5, true, true, none, none, some 100, []⟩).isActive
      = true) ∧
    getDurationForMode ⟨25, 5, 20, 3, 5, true, true, false⟩ .MICRO_BREAK = 20 := by
  decide

/-- Claim C7, amended: a settings save keeps the mode; it sets
`timeRemaining` to the new duration and forces a pause only when the current
mode is `WORK` and `workDuration` changed, or the current mode is
`SHORT_BREAK` and `breakDuration` changed; in particular a `MicroBreak`
duration change (or any change not affecting the current mode's duration)
leaves `timeRemaining` and `isActive` untouched. -/
theorem claim_C7_amended (oldS newS : Settings) (now : Nat) (q : ℚ)
    (s : AppState) :
    (settingsSaved oldS newS now q s).mode = s.mode ∧
    ((settingsSaved oldS newS now q s).timeRemaining,
      (settingsSaved oldS newS now q s).isActive) =
      (if s.mode = .WORK ∧ oldS.workDuration ≠ newS.workDuration then
        (newS.workDuration * 60, false)
      else if s.mode = .SHORT_BREAK ∧ oldS.breakDuration ≠ newS.breakDuration then
        (newS.breakDuration * 60, false)
      else (s.timeRemaining, s.isActive)) := by
  unfold settingsSaved
  split_ifs with h1 h2 <;> simp

/-- Frame lemma: `switchMode` never touches the ledger. -/
@[simp]
theorem switchMode_logs (settings : Settings) (now : Nat) (q : ℚ)
    (newMode : TimerMode) (manual : Bool) (s : AppState) :
    (switchMode settings now q newMode manual s).logs = s.logs := by
  cases newMode <;> simp only [switchMode] <;> split_ifs <;> simp

/-- Lemma: a tick either leaves the ledger alone or records one second for
today. -/
theorem tick_logs_cases (settings : Settings) (today : String) (now : Nat)
    (q₁ q₂ : ℚ) (st : AppState) :
    (tick settings today now q₁ q₂ st).logs = st.logs ∨
    (tick settings today now q₁ q₂ st).logs = recordWorkTime today 1 st.logs := by
  unfold tick
  simp only [applyRescheduleEffect_logs]
  cases hsm : st.mode <;> split_ifs <;> simp_all

/-- Claim C5: with Work active, `timeRemaining = T > 0` and no micro-break
due at any of the `N ≤ T` tick instants, `N` ticks leave Work active with
`timeRemaining = T - N` and add exactly `N` seconds to today's ledger
record; moreover any single tick keeps every ledger record (dates are never
removed) with a non-decreasing `secondsWorked` (which is a natural number,
hence non-negative). -/
theorem claim_C5 (settings : Settings) (today : String)
    (events : List (Nat × ℚ × ℚ)) (s : AppState)
    (hmode : s.mode = .WORK) (hact : s.isActive = true)
    (_hT : 0 < s.timeRemaining) (hlen : events.length ≤ s.timeRemaining)
    (hdue : ∀ e ∈ events, microDue settings e.1 s = false) :
    ((runTicks settings today events s).mode = .WORK ∧
     (runTicks settings today events s).isActive = true ∧
     (runTicks settings today events s).timeRemaining
       = s.timeRemaining - events.length ∧
     todaySeconds today (runTicks settings today events s).logs
       = todaySeconds today s.logs + events.length) ∧
    (∀ (st : AppState) (n : Nat) (q₁ q₂ : ℚ), ∀ l ∈ st.logs,
      ∃ l' ∈ (tick settings today n q₁ q₂ st).logs,
        l'.date = l.date ∧ l.secondsWorked ≤ l'.secondsWorked) := by
  have h := runTicks_work settings today events s hmode hact hlen hdue
  constructor
  · rw [h]
    exact ⟨by simp [hmode], by simp [hact], by simp,
      by simp [todaySeconds_recordTicks]⟩
  · intro st n q₁ q₂ l hl
    rcases tick_logs_cases settings today n q₁ q₂ st with hc | hc
    · exact ⟨l, by rw [hc]; exact hl, rfl, le_refl _⟩
    · obtain ⟨l', h1, h2, h3⟩ := recordWorkTime_preserves today 1 st.logs l hl
      exact ⟨l', by rw [hc]; exact h1, h2, h3⟩

/-- Witness for claim C5 at a concrete input: three plain work ticks from
`timeRemaining = 100` leave 97 and record 3 seconds. -/
theorem claim_C5_witness :
    (runTicks ⟨25, 5, 10, 3, 5, true, true, false⟩ "2099-01-01"
        [(1000, 0, 0), (2000, 0, 0), (3000, 0, 0)]
        ⟨.WORK, 100, true, false, none, none, none, []⟩).timeRemaining = 97 ∧
    todaySeconds "2099-01-01"
      (runTicks ⟨25, 5, 10, 3, 5, true, true, false⟩ "2099-01-01"
        [(1000, 0, 0), (2000, 0, 0), (3000, 0, 0)]
        ⟨.WORK, 100, true, false, none, none, none, []⟩).logs = 3 := by
  have h := claim_C5 ⟨25, 5, 10, 3, 5, true, true, false⟩ "2099-01-01"
    [(1000, 0, 0), (2000, 0, 0), (3000, 0, 0)]
    ⟨.WORK, 100, true, false, none, none, none, []⟩
    rfl rfl (by decide) (by decide) (by decide)
  exact ⟨h.1.2.2.1, h.1.2.2.2⟩

/-- Evaluation lemma: a zero random draw picks the lower end of the safe
interval. -/
@[simp]
theorem randomSeconds_zero (settings : Settings) :
    randomSeconds settings 0
      = Nat.min (settings.microBreakMinInterval * 60)
          (settings.microBreakMaxInterval * 60) := by
  simp [randomSeconds]

/-- Claim C1 (code bug), evaluation at the failing input: with
`minInterval = maxInterval = 1` (deterministic 60s draw), a Work session is
paused with `D = 29000` ms left to the micro-break deadline (deadline 30000,
paused at 1000); `toggleTimer` duly stores `remainingMillis = 29000`, but on
resume at 100000 the reschedule effect (App.tsx:429-436) fires — `isActive`
changed — and overwrites the restored deadline `129000` with a fresh draw,
leaving `160000`: 60000 ms to the micro-break instead of the required
`D = 29000`. -/
theorem claim_C1_bug_eval :
    ((toggleTimer ⟨25, 5, 10, 1, 1, true, true, false⟩ 1000 0 0
        ⟨.WORK, 1400, true, false, some 30000, none, none, []⟩).microBreakRemaining
      = some 29000) ∧
    ((toggleTimer ⟨25, 5, 10, 1, 1, true, true, false⟩ 1000 0 0
        ⟨.WORK, 1400, true, false, some 30000, none, none, []⟩).isActive = false) ∧
    ((toggleTimer ⟨25, 5, 10, 1, 1, true, true, false⟩ 100000 0 0
        (toggleTimer ⟨25, 5, 10, 1, 1, true, true, false⟩ 1000 0 0
          ⟨.WORK, 1400, true, false, some 30000, none, none, []⟩)).nextMicroBreakTime
      = some 160000) ∧
    ((toggleTimer ⟨25, 5, 10, 1, 1, true, true, false⟩ 100000 0 0
        (toggleTimer ⟨25, 5, 10, 1, 1, true, true, false⟩ 1000 0 0
          ⟨.WORK, 1400, true, false, some 30000, none, none, []⟩)).isActive = true) ∧
    (160000 - 100000 ≠ 29000) := by
  refine ⟨?_, ?_, ?_, ?_, by decide⟩ <;>
    simp [toggleTimer, microBreakRescheduleEffect, scheduleNextMicroBreak,
      randomSeconds, optTruthy]

/-- Frame lemma: `switchMode` moves to the requested mode. -/
@[simp]
theorem switchMode_mode (settings : Settings) (now : Nat) (q : ℚ)
    (newMode : TimerMode) (manual : Bool) (s : AppState) :
    (switchMode settings now q newMode manual s).mode = newMode := by
  cases newMode <;> simp only [switchMode] <;> split_ifs <;> simp

/-- Lemma: returning from a micro-break restores the snapshot, clears it,
and resumes unconditionally (App.tsx:449-459). -/
theorem switchMode_return_from_micro (settings : Settings) (now : Nat)
    (q : ℚ) (manual : Bool) (s : AppState) (R : Nat)
    (hmode : s.mode = .MICRO_BREAK) (hsnap : s.workTimeSnapshot = some R) :
    (switchMode settings now q .WORK manual s).mode = .WORK ∧
    (switchMode settings now q .WORK manual s).isActive = true ∧
    (switchMode settings now q .WORK manual s).timeRemaining = R ∧
    (switchMode settings now q .WORK manual s).workTimeSnapshot = none := by
  unfold switchMode
  simp [hmode, hsnap]

/-- Lemma: a due tick during active Work preempts into a micro-break,
snapshotting the pre-decrement countdown (the interval closure's stale
`timeRemaining`) and recording the second of work. -/
theorem tick_preempt (settings : Settings) (today : String) (now : Nat)
    (q₁ q₂ : ℚ) (s : AppState)
    (hmode : s.mode = .WORK) (hact : s.isActive = true)
    (htr : 0 < s.timeRemaining) (hdue : microDue settings now s = true)
    (hen : settings.enableMicroBreaks = true) :
    tick settings today now q₁ q₂ s =
      { s with mode := .MICRO_BREAK,
               timeRemaining := settings.microBreakDuration,
               isActive := true, showMicroBreakOverlay := true,
               nextMicroBreakTime := none, microBreakRemaining := none,
               workTimeSnapshot := some s.timeRemaining,
               logs := recordWorkTime today 1 s.logs } := by
  unfold tick applyRescheduleEffect microBreakRescheduleEffect switchMode
    scheduleNextMicroBreak getDurationForMode
  simp [hmode, hact, htr, hdue, hen]

/-- Lemma: a micro-break whose countdown hits 0 while active ends back in
Work, active, with the snapshot restored and cleared. -/
theorem tick_micro_end (settings : Settings) (today : String) (now : Nat)
    (q₁ q₂ : ℚ) (s : AppState) (R : Nat)
    (hmode : s.mode = .MICRO_BREAK) (hact : s.isActive = true)
    (htr : s.timeRemaining = 0) (hsnap : s.workTimeSnapshot = some R) :
    (tick settings today now q₁ q₂ s).mode = .WORK ∧
    (tick settings today now q₁ q₂ s).isActive = true ∧
    (tick settings today now q₁ q₂ s).timeRemaining = R ∧
    (tick settings today now q₁ q₂ s).workTimeSnapshot = none := by
  have hsw := switchMode_return_from_micro settings now q₁ false
    { s with isActive := false, showMicroBreakOverlay := false } R
    (by simp [hmode]) (by simp [hsnap])
  have hstep : tick settings today now q₁ q₂ s
      = applyRescheduleEffect settings now q₂ s
          (switchMode settings now q₁ .WORK false
            { s with isActive := false, showMicroBreakOverlay := false }) := by
    unfold tick
    rw [if_neg (by simp [htr]), if_pos ⟨htr, hact⟩]
    rw [hmode]
  rw [hstep]
  simp only [applyRescheduleEffect_mode, applyRescheduleEffect_isActive,
    applyRescheduleEffect_timeRemaining, applyRescheduleEffect_snapshot]
  exact hsw

/-- Lemma: skipping a micro-break ends back in Work, active, with the
snapshot restored and cleared. -/
theorem skipMicroBreak_fields (settings : Settings) (now : Nat) (q₁ q₂ : ℚ)
    (s : AppState) (R : Nat)
    (hmode : s.mode = .MICRO_BREAK) (hsnap : s.workTimeSnapshot = some R) :
    (skipMicroBreak settings now q₁ q₂ s).mode = .WORK ∧
    (skipMicroBreak settings now q₁ q₂ s).isActive = true ∧
    (skipMicroBreak settings now q₁ q₂ s).timeRemaining = R ∧
    (skipMicroBreak settings now q₁ q₂ s).workTimeSnapshot = none := by
  have hsw := switchMode_return_from_micro settings now q₁ false
    { s with showMicroBreakOverlay := false } R (by simp [hmode]) (by simp [hsnap])
  unfold skipMicroBreak
  simp only [applyRescheduleEffect_mode, applyRescheduleEffect_isActive,
    applyRescheduleEffect_timeRemaining, applyRescheduleEffect_snapshot]
  exact hsw

/-- Claim C2: a Work state with countdown `R` preempted by a due micro-break
snapshots `R`; micro-break ticks preserve the snapshot while counting down;
and both endings — countdown reaching 0, or an explicit skip — restore
`mode = Work, isActive = true, timeRemaining = R` (whatever the
`autoStartWork` setting, which is unconstrained here) and clear the
snapshot. -/
theorem claim_C2 (settings : Settings) (today : String) (now : Nat)
    (q₁ q₂ : ℚ) (s : AppState) (d : Nat)
    (hmode : s.mode = .WORK) (hact : s.isActive = true)
    (htr : 0 < s.timeRemaining)
    (hd : s.nextMicroBreakTime = some d) (hd0 : d ≠ 0) (hdn : d ≤ now)
    (hen : settings.enableMicroBreaks = true) :
    ((tick settings today now q₁ q₂ s).mode = .MICRO_BREAK ∧
     (tick settings today now q₁ q₂ s).isActive = true ∧
     (tick settings today now q₁ q₂ s).timeRemaining
        = settings.microBreakDuration ∧
     (tick settings today now q₁ q₂ s).workTimeSnapshot
        = some s.timeRemaining) ∧
    (∀ (now' : Nat) (q₃ q₄ : ℚ) (st : AppState), st.mode = .MICRO_BREAK →
      st.isActive = true → 0 < st.timeRemaining →
      (tick settings today now' q₃ q₄ st).mode = .MICRO_BREAK ∧
      (tick settings today now' q₃ q₄ st).isActive = true ∧
      (tick settings today now' q₃ q₄ st).timeRemaining
         = st.timeRemaining - 1 ∧
      (tick settings today now' q₃ q₄ st).workTimeSnapshot
         = st.workTimeSnapshot) ∧
    (∀ (now' : Nat) (q₃ q₄ : ℚ) (st : AppState), st.mode = .MICRO_BREAK →
      st.isActive = true → st.timeRemaining = 0 →
      st.workTimeSnapshot = some s.timeRemaining →
      (tick settings today now' q₃ q₄ st).mode = .WORK ∧
      (tick settings today now' q₃ q₄ st).isActive = true ∧
      (tick settings today now' q₃ q₄ st).timeRemaining = s.timeRemaining ∧
      (tick settings today now' q₃ q₄ st).workTimeSnapshot = none) ∧
    (∀ (now' : Nat) (q₃ q₄ : ℚ) (st : AppState), st.mode = .MICRO_BREAK →
      st.workTimeSnapshot = some s.timeRemaining →
      (skipMicroBreak settings now' q₃ q₄ st).mode = .WORK ∧
      (skipMicroBreak settings now' q₃ q₄ st).isActive = true ∧
      (skipMicroBreak settings now' q₃ q₄ st).timeRemaining
         = s.timeRemaining ∧
      (skipMicroBreak settings now' q₃ q₄ st).workTimeSnapshot = none) := by
  have hdue : microDue settings now s = true := by
    simp [microDue, hmode, hen, hd, optTruthy, hd0, hdn]
  refine ⟨?_, ?_, ?_, ?_⟩
  · rw [tick_preempt settings today now q₁ q₂ s hmode hact htr hdue hen]
    simp
  · intro now' q₃ q₄ st hm ha ht
    rw [tick_nonwork_plain settings today now' q₃ q₄ st (by simp [hm]) ha ht]
    simp [hm, ha]
  · intro now' q₃ q₄ st hm ha ht hsn
    exact tick_micro_end settings today now' q₃ q₄ st s.timeRemaining hm ha ht hsn
  · intro now' q₃ q₄ st hm hsn
    exact skipMicroBreak_fields settings now' q₃ q₄ st s.timeRemaining hm hsn

/-- Witness for claim C2: the concrete 1-minute-jitter scenario preempts
Work with 1441s left and a later skip restores exactly 1441s. -/
theorem claim_C2_witness :
    (tick ⟨25, 5, 10, 1, 1, true, true, false⟩ "2099-01-01" 60000 0 0
      ⟨.WORK, 1441, true, false, some 60000, some 60000, none, []⟩).workTimeSnapshot
        = some 1441 ∧
    (skipMicroBreak ⟨25, 5, 10, 1, 1, true, true, false⟩ 70000 0 0
      ⟨.MICRO_BREAK, 7, true, true, none, none, some 1441, []⟩).timeRemaining
        = 1441 := by
  have h := claim_C2 ⟨25, 5, 10, 1, 1, true, true, false⟩ "2099-01-01" 60000 0 0
    ⟨.WORK, 1441, true, false, some 60000, some 60000, none, []⟩ 60000
    rfl rfl (by decide) rfl (by decide) (by decide) rfl
  exact ⟨h.1.2.2.2,
    (h.2.2.2 70000 0 0 ⟨.MICRO_BREAK, 7, true, true, none, none, some 1441, []⟩
      rfl rfl).2.2.1⟩

/-- Lemma: with micro-breaks disabled the reschedule effect always leaves an
empty schedule. -/
theorem schedEmpty_effect_disabled (settings : Settings) (now : Nat) (q : ℚ)
    (s : AppState) (hen : settings.enableMicroBreaks = false) :
    schedEmpty (microBreakRescheduleEffect settings now q s) := by
  unfold microBreakRescheduleEffect
  split_ifs <;> simp_all [schedEmpty]

/-- Lemma: with micro-breaks disabled the conditional reschedule effect
preserves an empty schedule. -/
theorem schedEmpty_apply_disabled (settings : Settings) (now : Nat) (q : ℚ)
    (old s : AppState) (hen : settings.enableMicroBreaks = false)
    (h : schedEmpty s) :
    schedEmpty (applyRescheduleEffect settings now q old s) := by
  unfold applyRescheduleEffect
  split_ifs
  · exact h
  · exact schedEmpty_effect_disabled settings now q s hen

/-- Lemma: with micro-breaks disabled `switchMode` preserves an empty
schedule (its `scheduleNextMicroBreak` call clears instead of drawing). -/
theorem schedEmpty_switchMode_disabled (settings : Settings) (now : Nat)
    (q : ℚ) (newMode : TimerMode) (manual : Bool) (s : AppState)
    (hen : settings.enableMicroBreaks = false) (h : schedEmpty s) :
    schedEmpty (switchMode settings now q newMode manual s) := by
  obtain ⟨h1, h2⟩ := h
  cases newMode <;>
    simp only [switchMode, scheduleNextMicroBreak] <;>
    split_ifs <;> simp_all [schedEmpty]

/-- Claim C3: while `enableMicroBreaks` is false, a settings save leaves the
schedule empty from any state (immediate neutralization), every event
preserves the empty schedule, and no tick ever moves a non-micro-break mode
into `MICRO_BREAK` — the Work→MicroBreak edge is never taken. -/
theorem claim_C3 (settings oldS : Settings) (today : String) (now : Nat)
    (q₁ q₂ : ℚ) (s : AppState)
    (hen : settings.enableMicroBreaks = false) (hemp : schedEmpty s) :
    (∀ (s' : AppState) (now' : Nat) (q' : ℚ),
        schedEmpty (settingsSaved oldS settings now' q' s')) ∧
    schedEmpty (tick settings today now q₁ q₂ s) ∧
    schedEmpty (toggleTimer settings now q₁ q₂ s) ∧
    schedEmpty (resetTimer settings now q₁ s) ∧
    schedEmpty (skipMicroBreak settings now q₁ q₂ s) ∧
    (s.mode ≠ .MICRO_BREAK →
      (tick settings today now q₁ q₂ s).mode ≠ .MICRO_BREAK) := by
  obtain ⟨he1, he2⟩ := hemp
  have hdue : microDue settings now s = false := by simp [microDue, hen]
  refine ⟨?_, ?_, ?_, ?_, ?_, ?_⟩
  · intro s' now' q'
    unfold settingsSaved
    exact schedEmpty_effect_disabled settings now' q' _ hen
  · unfold tick
    apply schedEmpty_apply_disabled settings now q₂ s _ hen
    cases hsm : s.mode <;> split_ifs <;>
      first
        | exact schedEmpty_switchMode_disabled settings now q₁ _ false _ hen
            ⟨by simp [he1], by simp [he2]⟩
        | simp_all [schedEmpty]
  · unfold toggleTimer
    exact schedEmpty_effect_disabled settings now q₂ _ hen
  · unfold resetTimer
    apply schedEmpty_apply_disabled settings now q₁ s _ hen
    exact ⟨rfl, rfl⟩
  · unfold skipMicroBreak
    apply schedEmpty_apply_disabled settings now q₂ s _ hen
    apply schedEmpty_switchMode_disabled settings now q₁ _ false _ hen
    exact ⟨by simp [he1], by simp [he2]⟩
  · intro hm
    unfold tick
    simp only [applyRescheduleEffect_mode]
    cases hsm : s.mode <;> split_ifs <;> simp_all

/-- Witness for claim C3: with micro-breaks disabled and empty schedule, a
work tick keeps the schedule empty and stays in Work mode. -/
theorem claim_C3_witness :
    schedEmpty (tick ⟨25, 5, 10, 3, 5, false, true, false⟩ "2099-01-01" 5000 0 0
      ⟨.WORK, 50, true, false, none, none, none, []⟩) ∧
    (tick ⟨25, 5, 10, 3, 5, false, true, false⟩ "2099-01-01" 5000 0 0
      ⟨.WORK, 50, true, false, none, none, none, []⟩).mode ≠ .MICRO_BREAK := by
  have h := claim_C3 ⟨25, 5, 10, 3, 5, false, true, false⟩
    ⟨25, 5, 10, 3, 5, true, true, false⟩ "2099-01-01" 5000 0 0
    ⟨.WORK, 50, true, false, none, none, none, []⟩ rfl ⟨rfl, rfl⟩
  exact ⟨h.2.1, h.2.2.2.2.2 (by decide)⟩

/-- The settings of the C4 scenario: 25/5 minutes, 10s micro-breaks, jitter
window collapsed to exactly one minute. -/
def c4Settings : Settings := ⟨25, 5, 10, 1, 1, true, true, false⟩

/-- The C4 scenario's pristine start state (Work, paused, full duration). -/
def c4Start : AppState := ⟨.WORK, 25 * 60, false, false, none, none, none, []⟩

set_option maxRecDepth 100000 in
/-- Claim C4, counterexample: in the collapsed-jitter scenario, the 60th
tick does trigger the micro-break with `timeRemaining = 10`, but the work
snapshot is `1441 = 25*60 - 59`, not the claimed `1440`: the preempting
tick's decrement is discarded because `switchMode` captures the pre-tick
countdown. -/
theorem claim_C4_counterexample :
    toggleTimer c4Settings 0 0 0 c4Start
      = ⟨.WORK, 1500, true, false, some 60000, some 60000, none, []⟩ ∧
    ((runTicks c4Settings "2099-01-01"
        ((List.range 60).map fun k => ((k + 1) * 1000, 0, 0))
        ⟨.WORK, 1500, true, false, some 60000, some 60000, none, []⟩).mode
      = .MICRO_BREAK) ∧
    ((runTicks c4Settings "2099-01-01"
        ((List.range 60).map fun k => ((k + 1) * 1000, 0, 0))
        ⟨.WORK, 1500, true, false, some 60000, some 60000, none, []⟩).timeRemaining
      = 10) ∧
    ((runTicks c4Settings "2099-01-01"
        ((List.range 60).map fun k => ((k + 1) * 1000, 0, 0))
        ⟨.WORK, 1500, true, false, some 60000, some 60000, none, []⟩).workTimeSnapshot
      = some 1441) ∧
    ((runTicks c4Settings "2099-01-01"
        ((List.range 60).map fun k => ((k + 1) * 1000, 0, 0))
        ⟨.WORK, 1500, true, false, some 60000, some 60000, none, []⟩).workTimeSnapshot
      ≠ some 1440) := by
  constructor
  · simp [c4Settings, c4Start, toggleTimer, microBreakRescheduleEffect,
      scheduleNextMicroBreak, randomSeconds, optTruthy]
  · exact ⟨by decide, by decide, by decide, by decide⟩

/-- Claim C4, amended: in the collapsed-jitter scenario started at any epoch
`t0` with any random draws (`qb`, the draw the reschedule effect performs on
start, being a genuine `Math.random()` result in `[0,1)`), ticks 1..59 stay
in Work counting down to 1441, and the 60th tick (at `t0 + 60000`) triggers
the micro-break: `mode = MICRO_BREAK`, `timeRemaining = 10`, active, with
`workSnapshotSeconds = 1441 = 25*60 - 59` (the pre-decrement countdown of
the preempting tick) and 60 ledger seconds. -/
theorem claim_C4_amended (today : String) (t0 : Nat) (qa qc qd : ℚ)
    (qb : ℚ) (qf : Nat → ℚ × ℚ) (hqb0 : 0 ≤ qb) (hqb1 : qb < 1) :
    ((runTicks c4Settings today
        ((List.range 59).map fun k => (t0 + (k + 1) * 1000, (qf k).1, (qf k).2))
        (toggleTimer c4Settings t0 qa qb c4Start)).mode = .WORK ∧
     (runTicks c4Settings today
        ((List.range 59).map fun k => (t0 + (k + 1) * 1000, (qf k).1, (qf k).2))
        (toggleTimer c4Settings t0 qa qb c4Start)).timeRemaining = 1441) ∧
    ((tick c4Settings today (t0 + 60000) qc qd
        (runTicks c4Settings today
          ((List.range 59).map fun k => (t0 + (k + 1) * 1000, (qf k).1, (qf k).2))
          (toggleTimer c4Settings t0 qa qb c4Start))).mode = .MICRO_BREAK ∧
     (tick c4Settings today (t0 + 60000) qc qd
        (runTicks c4Settings today
          ((List.range 59).map fun k => (t0 + (k + 1) * 1000, (qf k).1, (qf k).2))
          (toggleTimer c4Settings t0 qa qb c4Start))).timeRemaining = 10 ∧
     (tick c4Settings today (t0 + 60000) qc qd
        (runTicks c4Settings today
          ((List.range 59).map fun k => (t0 + (k + 1) * 1000, (qf k).1, (qf k).2))
          (toggleTimer c4Settings t0 qa qb c4Start))).isActive = true ∧
     (tick c4Settings today (t0 + 60000) qc qd
        (runTicks c4Settings today
          ((List.range 59).map fun k => (t0 + (k + 1) * 1000, (qf k).1, (qf k).2))
          (toggleTimer c4Settings t0 qa qb c4Start))).workTimeSnapshot
        = some 1441 ∧
     todaySeconds today
       (tick c4Settings today (t0 + 60000) qc qd
          (runTicks c4Settings today
            ((List.range 59).map fun k => (t0 + (k + 1) * 1000, (qf k).1, (qf k).2))
            (toggleTimer c4Settings t0 qa qb c4Start))).logs = 60) := by
  have hen : c4Settings.enableMicroBreaks = true := rfl
  have hfloor : ⌊qb⌋ = 0 := Int.floor_eq_zero_iff.mpr ⟨hqb0, hqb1⟩
  have hr : randomSeconds c4Settings qb = 60 := by
    unfold randomSeconds c4Settings
    norm_num [hfloor]
  have hs0 : toggleTimer c4Settings t0 qa qb c4Start
      = ⟨.WORK, 1500, true, false, some (t0 + 60000), some 60000, none, []⟩ := by
    unfold toggleTimer microBreakRescheduleEffect scheduleNextMicroBreak c4Start
    simp [optTruthy, hr, hen]
  rw [hs0]
  have hwork := runTicks_work c4Settings today
    ((List.range 59).map fun k => (t0 + (k + 1) * 1000, (qf k).1, (qf k).2))
    ⟨.WORK, 1500, true, false, some (t0 + 60000), some 60000, none, []⟩
    rfl rfl (by simp)
    (by
      intro e he
      obtain ⟨k, hk, rfl⟩ := List.mem_map.mp he
      have hk59 : k < 59 := List.mem_range.mp hk
      simp only [microDue, optTruthy]
      have : ¬(t0 + 60000 ≤ t0 + (k + 1) * 1000) := by omega
      simp [this])
  rw [hwork]
  have hlen : ((List.range 59).map fun k =>
      (t0 + (k + 1) * 1000, (qf k).1, (qf k).2)).length = 59 := by simp
  rw [hlen]
  have hpre := tick_preempt c4Settings today (t0 + 60000) qc qd
    ⟨.WORK, 1500 - 59, true, false, some (t0 + 60000), some 60000, none,
      recordTicks today 59 []⟩
    rfl rfl (by norm_num)
    (by simp [microDue, optTruthy, hen]; try omega)
    rfl
  constructor
  · exact ⟨rfl, rfl⟩
  · have hts : todaySeconds today
        (recordWorkTime today 1 (recordTicks today 59 [])) = 60 := by
      rw [todaySeconds_recordWorkTime, todaySeconds_recordTicks]
      simp [todaySeconds]
    rw [hpre]
    exact ⟨rfl, rfl, rfl, rfl, by simpa using hts⟩

/-- Witness for claim C4 (amended) at epoch 0 with zero draws. -/
theorem claim_C4_witness :
    (tick c4Settings "2099-01-01" 60000 0 0
        (runTicks c4Settings "2099-01-01"
          ((List.range 59).map fun k => ((k + 1) * 1000, 0, 0))
          (toggleTimer c4Settings 0 0 0 c4Start))).workTimeSnapshot
      = some 1441 := by
  have h := claim_C4_amended "2099-01-01" 0 0 0 0 0 (fun _ => (0, 0))
    (le_refl 0) (by norm_num)
  exact h.2.2.2.2.1


/-- Claim C6: `scheduleNextMicroBreak` yields an empty schedule when
micro-breaks are disabled; otherwise it sets `remainingMillis =
randomSeconds*1000` and the deadline `now + remainingMillis`, where the
draw always lies in `[min*60, max*60]` after swap-normalization of the
bounds, is deterministic when the bounds coincide, and is uniform: each
admissible value `k` is hit exactly on a `Math.random()` subinterval of
width `1/(safeMax - safeMin + 1)`. -/
theorem claim_C6 (settings : Settings) (now : Nat) (q : ℚ) (s : AppState)
    (hq0 : 0 ≤ q) (hq1 : q < 1) :
    (settings.enableMicroBreaks = false →
      (scheduleNextMicroBreak settings now q s).nextMicroBreakTime = none ∧
      (scheduleNextMicroBreak settings now q s).microBreakRemaining = none) ∧
    (settings.enableMicroBreaks = true →
      (scheduleNextMicroBreak settings now q s).microBreakRemaining
        = some (randomSeconds settings q * 1000) ∧
      (scheduleNextMicroBreak settings now q s).nextMicroBreakTime
        = some (now + randomSeconds settings q * 1000)) ∧
    Nat.min (settings.microBreakMinInterval * 60)
        (settings.microBreakMaxInterval * 60) ≤ randomSeconds settings q ∧
    randomSeconds settings q
      ≤ Nat.max (settings.microBreakMinInterval * 60)
          (settings.microBreakMaxInterval * 60) ∧
    (settings.microBreakMinInterval = settings.microBreakMaxInterval →
      randomSeconds settings q = settings.microBreakMinInterval * 60) ∧
    (∀ k : Nat,
      Nat.min (settings.microBreakMinInterval * 60)
        (settings.microBreakMaxInterval * 60) ≤ k →
      k ≤ Nat.max (settings.microBreakMinInterval * 60)
            (settings.microBreakMaxInterval * 60) →
      (randomSeconds settings q = k ↔
        ((k - Nat.min (settings.microBreakMinInterval * 60)
            (settings.microBreakMaxInterval * 60) : ℕ) : ℚ)
            / ((Nat.max (settings.microBreakMinInterval * 60)
                  (settings.microBreakMaxInterval * 60)
                - Nat.min (settings.microBreakMinInterval * 60)
                    (settings.microBreakMaxInterval * 60) + 1 : ℕ) : ℚ) ≤ q ∧
        q < ((k - Nat.min (settings.microBreakMinInterval * 60)
                (settings.microBreakMaxInterval * 60) + 1 : ℕ) : ℚ)
              / ((Nat.max (settings.microBreakMinInterval * 60)
                    (settings.microBreakMaxInterval * 60)
                  - Nat.min (settings.microBreakMinInterval * 60)
                      (settings.microBreakMaxInterval * 60) + 1 : ℕ) : ℚ))) := by
  set a := Nat.min (settings.microBreakMinInterval * 60)
    (settings.microBreakMaxInterval * 60) with ha
  set b := Nat.max (settings.microBreakMinInterval * 60)
    (settings.microBreakMaxInterval * 60) with hb
  have hab : a ≤ b := min_le_max
  have hmcast : ((b - a + 1 : ℕ) : ℚ) = (b : ℚ) - (a : ℚ) + 1 := by
    push_cast [hab]
    ring
  have hm0 : (0 : ℚ) < ((b - a + 1 : ℕ) : ℚ) := by
    exact_mod_cast Nat.succ_pos (b - a)
  have hrs : randomSeconds settings q
      = (⌊q * ((b - a + 1 : ℕ) : ℚ)⌋).toNat + a := by
    simp only [randomSeconds]
    rw [← hb, ← ha, ← hmcast]
  have hf0 : 0 ≤ ⌊q * ((b - a + 1 : ℕ) : ℚ)⌋ :=
    Int.floor_nonneg.mpr (mul_nonneg hq0 (le_of_lt hm0))
  have hflt : ⌊q * ((b - a + 1 : ℕ) : ℚ)⌋ < ((b - a + 1 : ℕ) : ℤ) := by
    rw [Int.floor_lt]
    push_cast [hab]
    calc q * ((b : ℚ) - (a : ℚ) + 1) < 1 * ((b : ℚ) - (a : ℚ) + 1) := by
          apply mul_lt_mul_of_pos_right hq1
          rw [← hmcast]; exact hm0
      _ = (b : ℚ) - (a : ℚ) + 1 := one_mul _
  refine ⟨?_, ?_, ?_, ?_, ?_, ?_⟩
  · intro hen
    unfold scheduleNextMicroBreak
    simp [hen]
  · intro hen
    unfold scheduleNextMicroBreak
    simp [hen]
  · rw [hrs]; omega
  · rw [hrs]; omega
  · intro heq
    have hba : b = a := by rw [hb, ha, heq]; simp
    have hm1 : (b - a + 1 : ℕ) = 1 := by omega
    rw [hrs, hm1]
    have h1 : ⌊q * ((1 : ℕ) : ℚ)⌋ = 0 := by
      rw [Nat.cast_one, mul_one]
      exact Int.floor_eq_zero_iff.mpr ⟨hq0, hq1⟩
    rw [h1]
    simp only [Int.toNat_zero, Nat.zero_add]
    rw [ha, heq]
    simp
  · intro k hak hkb
    rw [hrs]
    have hiff1 : (⌊q * ((b - a + 1 : ℕ) : ℚ)⌋).toNat + a = k ↔
        ⌊q * ((b - a + 1 : ℕ) : ℚ)⌋ = ((k - a : ℕ) : ℤ) := by omega
    have hdiv1 : ((k - a : ℕ) : ℚ) / ((b - a + 1 : ℕ) : ℚ) ≤ q ↔
        ((k - a : ℕ) : ℚ) ≤ q * ((b - a + 1 : ℕ) : ℚ) := div_le_iff₀ hm0
    have hdiv2 : q < ((k - a + 1 : ℕ) : ℚ) / ((b - a + 1 : ℕ) : ℚ) ↔
        q * ((b - a + 1 : ℕ) : ℚ) < ((k - a + 1 : ℕ) : ℚ) := lt_div_iff₀ hm0
    rw [hiff1, Int.floor_eq_iff, hdiv1, hdiv2]
    push_cast [hak]
    constructor
    · rintro ⟨h1, h2⟩
      exact ⟨h1, by linarith⟩
    · rintro ⟨h1, h2⟩
      exact ⟨h1, by linarith⟩

/-- Witness for claim C6 at swapped bounds (`min = 2 > max = 1` minutes) and
`q = 1/2`: the draw lies in the normalized range `[60, 120]`. -/
theorem claim_C6_witness :
    Nat.min (2 * 60) (1 * 60)
      ≤ randomSeconds ⟨1, 1, 10, 2, 1, true, true, true⟩ (1 / 2) ∧
    randomSeconds ⟨1, 1, 10, 2, 1, true, true, true⟩ (1 / 2)
      ≤ Nat.max (2 * 60) (1 * 60) := by
  have h := claim_C6 ⟨1, 1, 10, 2, 1, true, true, true⟩ 0 (1 / 2)
    ⟨.WORK, 10, true, false, none, none, none, []⟩ (by norm_num) (by norm_num)
  exact ⟨h.2.2.1, h.2.2.2.1⟩

/-!  ## The markdown archive (`src/utils/markdown.ts`)

JavaScript strings are modelled as `List Char` (UTF-16 code points; all
literals involved are BMP characters).  The only string operations the two
functions under scrutiny perform are `array.join('\n')` (modelled by
`joinNl`), `string.split('\n')` (modelled by `splitNl`), template-literal
concatenation (list append), regular-expression matches against the four
fixed line patterns (modelled by the `parse*Line` functions below, which
spell out exactly which lines each anchored pattern accepts — `.` in a
JavaScript regex matches any character except the line terminators
`\n \r    `), `parseInt` on a digit string (`digitsToNat`) and
number-to-decimal-string conversion (`natDecimal`).  The day-header split
`content.split(/^## (\d{4}-\d{2}-\d{2}) 任务$/gm)` cuts the content exactly
at the full lines matching the pattern, keeping the captured date; at line
granularity (the section contents are immediately re-split by `'\n'` and
the leftover empty fragments match no line pattern) this is `groupSections`
below.  All inputs considered are free of `\r`/` `/` `, where
splitting on `'\n'` agrees with JavaScript's line-anchor semantics. -/

namespace Markdown

/-- The `Column` record from `src/types.ts`. -/
structure Column where
  id : List Char
  title : List Char
deriving DecidableEq, Repr

/-- The `Task` record from `src/types.ts`. -/
structure Task where
  id : List Char
  text : List Char
  completed : Bool
  createdAt : Nat
  completedAt : Option Nat := none
  columnId : List Char
deriving DecidableEq, Repr

/-- The `HistoricalTask` record from `src/types.ts`. -/
structure HistoricalTask where
  id : List Char
  text : List Char
  completed : Bool
  columnTitle : List Char
  completedAt : Option Nat := none
deriving DecidableEq, Repr

/-- The `DailySnapshot` record from `src/types.ts`. -/
structure DailySnapshot where
  date : List Char
  tasks : List HistoricalTask
  focusMinutes : Nat
deriving DecidableEq, Repr

/-- `Array.prototype.join('\n')`. -/
def joinNl : List (List Char) → List Char
  | [] => []
  | [l] => l
  | l :: ls => l ++ '\n' :: joinNl ls

/-- `String.prototype.split('\n')`. -/
def splitNl : List Char → List (List Char)
  | [] => [[]]
  | c :: cs =>
    if c = '\n' then [] :: splitNl cs
    else
      match splitNl cs with
      | [] => [[c]]
      | h :: t => (c :: h) :: t

/-- Accumulator loop of the decimal rendering of a natural number. -/
def natDecimalGo (n : Nat) (acc : List Char) : List Char :=
  if h : n = 0 then acc
  else natDecimalGo (n / 10) (Char.ofNat (48 + n % 10) :: acc)
decreasing_by exact Nat.div_lt_self (Nat.pos_of_ne_zero h) (by norm_num)

/-- Decimal rendering of a natural number — the template literal
`${focusMinutes}`. -/
def natDecimal (n : Nat) : List Char :=
  if n = 0 then ['0'] else natDecimalGo n []

/-- `parseInt` restricted to an all-digit string. -/
def digitsToNat (ds : List Char) : Nat :=
  ds.foldl (fun acc c => acc * 10 + (c.toNat - 48)) 0

/-- The JavaScript line terminators, which `.` in a regex never matches. -/
def jsLineTerm (c : Char) : Bool :=
  c == '\n' || c == '\r' || c == ' ' || c == ' '

/-- A string usable as a single line: free of line terminators. -/
def singleLine (l : List Char) : Prop := ∀ c ∈ l, jsLineTerm c = false

instance (l : List Char) : Decidable (singleLine l) :=
  inferInstanceAs (Decidable (∀ c ∈ l, jsLineTerm c = false))

/-- Test for `\d{4}-\d{2}-\d{2}`. -/
def isDate10 : List Char → Bool
  | [a, b, c, d, x, e, f, y, g, h] =>
    a.isDigit && b.isDigit && c.isDigit && d.isDigit && x == '-' &&
    e.isDigit && f.isDigit && y == '-' && g.isDigit && h.isDigit
  | _ => false

/-- Full-line match of `/^## (\d{4}-\d{2}-\d{2}) 任务$/` returning the
captured date: the line must be exactly `"## " ++ d ++ " 任务"` with `d` a
ten-character date. -/
def parseDayHeader (line : List Char) : Option (List Char) :=
  let d := (line.drop 3).take 10
  if "## ".toList.isPrefixOf line = true ∧ line.drop 13 = " 任务".toList ∧
      isDate10 d = true
  then some d else none

/-- Full-line match of `/^### (.+)$/` returning the captured title. -/
def parseColumnHeader (line : List Char) : Option (List Char) :=
  if "### ".toList.isPrefixOf line = true ∧ line.drop 4 ≠ [] ∧
      (line.drop 4).all (fun c => !jsLineTerm c) = true
  then some (line.drop 4) else none

/-- Full-line match of `/^- \[([ x])\] (.+)$/` returning completion flag and
text. -/
def parseTaskLine (line : List Char) : Option (Bool × List Char) :=
  if "- [x] ".toList.isPrefixOf line = true ∧ line.drop 6 ≠ [] ∧
      (line.drop 6).all (fun c => !jsLineTerm c) = true
  then some (true, line.drop 6)
  else if "- [ ] ".toList.isPrefixOf line = true ∧ line.drop 6 ≠ [] ∧
      (line.drop 6).all (fun c => !jsLineTerm c) = true
  then some (false, line.drop 6)
  else none

/-- Full-line match of `/^> 专注时间: (\d+) 分钟$/` returning the parsed
minutes. -/
def parseFocusLine (line : List Char) : Option Nat :=
  let pre := "> 专注时间: ".toList
  let rest := line.drop pre.length
  let ds := rest.take (rest.length - 3)
  if pre.isPrefixOf line = true ∧ rest.drop (rest.length - 3) = " 分钟".toList ∧
      ds ≠ [] ∧ ds.all Char.isDigit = true
  then some (digitsToNat ds) else none

/-- The checkbox text of `generateDayMarkdown`. -/
def checkboxFor (completed : Bool) : List Char :=
  if completed then "[x]".toList else "[ ]".toList

/-- The line `- ${checkbox} ${task.text}`, src/utils/markdown.ts:26-27. -/
def taskLineOf (t : Task) : List Char :=
  "- ".toList ++ checkboxFor t.completed ++ ' ' :: t.text

/-- The lines a column contributes, src/utils/markdown.ts:20-30: nothing if
it has no tasks, else its `###` header, its task lines and a blank line. -/
def columnBlock (tasks : List Task) (column : Column) : List (List Char) :=
  let columnTasks := tasks.filter (fun t => t.columnId = column.id)
  if columnTasks.isEmpty then []
  else ("### ".toList ++ column.title) :: columnTasks.map taskLineOf ++ [[]]

/-- The focus-time lines, src/utils/markdown.ts:33-36. -/
def focusLinesOf (focusMinutes : Nat) : List (List Char) :=
  if 0 < focusMinutes then
    ["> 专注时间: ".toList ++ natDecimal focusMinutes ++ " 分钟".toList, []]
  else []

/-- The `lines` array built by `generateDayMarkdown`
(src/utils/markdown.ts:7-38) before `join('\n')`: day header, blank line,
per non-empty column its block, and the focus-time lines. -/
def generateDayLines (date : List Char) (tasks : List Task)
    (columns : List Column) (focusMinutes : Nat) : List (List Char) :=
  ["## ".toList ++ date ++ " 任务".toList, []]
  ++ columns.flatMap (columnBlock tasks)
  ++ focusLinesOf focusMinutes

/-- `generateDayMarkdown`, src/utils/markdown.ts:7-39. -/
def generateDayMarkdown (date : List Char) (tasks : List Task)
    (columns : List Column) (focusMinutes : Nat) : List Char :=
  joinNl (generateDayLines date tasks columns focusMinutes)

/-- The parser's per-section loop state (`tasks`, `focusMinutes`,
`columnTitle`), src/utils/markdown.ts:80-84. -/
structure ParseAcc where
  tasks : List HistoricalTask
  focusMinutes : Nat
  columnTitle : List Char
deriving Repr

/-- One iteration of the line loop of `parseMarkdownToSnapshots`
(src/utils/markdown.ts:87-111): a column header updates `columnTitle` and
continues; otherwise a task line appends a `HistoricalTask` (its
nondeterministic `imported-…` id is modelled by a constant — no claim
inspects ids) and a focus line sets `focusMinutes`. -/
def parseSectionLine (acc : ParseAcc) (line : List Char) : ParseAcc :=
  match parseColumnHeader line with
  | some t => { acc with columnTitle := t }
  | none =>
    let acc1 :=
      match parseTaskLine line with
      | some (done, txt) =>
        { acc with tasks := acc.tasks ++
            [{ id := "imported".toList, text := txt, completed := done,
               columnTitle := acc.columnTitle }] }
      | none => acc
    match parseFocusLine line with
    | some n => { acc1 with focusMinutes := n }
    | none => acc1

/-- Parse one day section (`columnTitle` starts as `未分类`),
src/utils/markdown.ts:80-117. -/
def parseSection (d : List Char) (ls : List (List Char)) : DailySnapshot :=
  let acc := ls.foldl parseSectionLine ⟨[], 0, "未分类".toList⟩
  ⟨d, acc.tasks, acc.focusMinutes⟩

/-- A line that is not a day header. -/
def notDayHeader (l : List Char) : Bool := (parseDayHeader l).isNone

/-- The day-header split of `parseMarkdownToSnapshots` at line granularity:
each line fully matching the day-header pattern opens a section owning the
lines up to the next header line; text before the first header is skipped
(the loop over `sections` starts at index 1). -/
def groupSections : List (List Char) → List (List Char × List (List Char))
  | [] => []
  | line :: rest =>
    match parseDayHeader line with
    | some d => (d, rest.takeWhile notDayHeader) :: groupSections rest
    | none => groupSections rest

/-- `parseMarkdownToSnapshots`, src/utils/markdown.ts:68-121. -/
def parseMarkdownToSnapshots (content : List Char) : List DailySnapshot :=
  (groupSections (splitNl content)).map (fun s => parseSection s.1 s.2)

/-- The tasks grouped by column in column order — the order in which
`generateDayMarkdown` emits them. -/
def tasksGroupedByColumns (tasks : List Task) (columns : List Column) :
    List Task :=
  columns.flatMap (fun c => tasks.filter (fun t => t.columnId = c.id))


/-! ### Splitting inverts joining on newline-free lines -/

theorem splitNl_no_nl (l : List Char) (h : '\n' ∉ l) : splitNl l = [l] := by
  induction l with
  | nil => rfl
  | cons c cs ih =>
    have hc : ¬ c = '\n' := by
      intro e; exact h (e ▸ List.mem_cons_self c cs)
    have hcs : '\n' ∉ cs := fun m => h (List.mem_cons_of_mem _ m)
    simp [splitNl, hc, ih hcs]

theorem splitNl_append_cons (l rest : List Char) (h : '\n' ∉ l) :
    splitNl (l ++ '\n' :: rest) = l :: splitNl rest := by
  induction l with
  | nil => simp [splitNl]
  | cons c cs ih =>
    have hc : ¬ c = '\n' := by
      intro e; exact h (e ▸ List.mem_cons_self c cs)
    have hcs : '\n' ∉ cs := fun m => h (List.mem_cons_of_mem _ m)
    simp [splitNl, hc, ih hcs]

theorem splitNl_joinNl (ls : List (List Char)) (hne : ls ≠ [])
    (h : ∀ l ∈ ls, '\n' ∉ l) : splitNl (joinNl ls) = ls := by
  induction ls with
  | nil => exact absurd rfl hne
  | cons l t ih =>
    cases t with
    | nil => exact splitNl_no_nl l (h l (List.mem_cons_self _ _))
    | cons l2 t2 =>
      have hj : joinNl (l :: l2 :: t2) = l ++ '\n' :: joinNl (l2 :: t2) := rfl
      rw [hj, splitNl_append_cons l _ (h l (List.mem_cons_self _ _))]
      rw [ih (by simp) (fun x hx => h x (List.mem_cons_of_mem _ hx))]

/-! ### The decimal numeral parses back to the number it renders -/

theorem natDecimalGo_zero (acc : List Char) : natDecimalGo 0 acc = acc := by
  rw [natDecimalGo]
  rfl

theorem natDecimalGo_eq (n : Nat) (acc : List Char) (h : n ≠ 0) :
    natDecimalGo n acc
      = natDecimalGo (n / 10) (Char.ofNat (48 + n % 10) :: acc) := by
  conv_lhs => rw [natDecimalGo]
  rw [dif_neg h]

theorem natDecimalGo_append (n : Nat) : ∀ acc : List Char,
    natDecimalGo n acc = natDecimalGo n [] ++ acc := by
  induction n using Nat.strong_induction_on with
  | _ n ih =>
    intro acc
    by_cases h : n = 0
    · subst h
      simp [natDecimalGo_zero]
    · have hlt : n / 10 < n := Nat.div_lt_self (Nat.pos_of_ne_zero h) (by norm_num)
      rw [natDecimalGo_eq n acc h, natDecimalGo_eq n [] h,
        ih (n / 10) hlt (Char.ofNat (48 + n % 10) :: acc),
        ih (n / 10) hlt [Char.ofNat (48 + n % 10)]]
      simp

theorem digitsToNat_foldl_from (l : List Char) : ∀ a : Nat,
    l.foldl (fun acc c => acc * 10 + (c.toNat - 48)) a
      = a * 10 ^ l.length + digitsToNat l := by
  induction l with
  | nil => intro a; simp [digitsToNat]
  | cons c cs ih =>
    intro a
    show cs.foldl _ (a * 10 + (c.toNat - 48)) = _
    rw [ih (a * 10 + (c.toNat - 48))]
    have hz : digitsToNat (c :: cs)
        = (c.toNat - 48) * 10 ^ cs.length + digitsToNat cs := by
      show cs.foldl _ (0 * 10 + (c.toNat - 48)) = _
      rw [ih (0 * 10 + (c.toNat - 48))]
      ring_nf
    rw [hz]
    simp [List.length_cons, pow_succ]
    ring

theorem digitsToNat_append (l1 l2 : List Char) :
    digitsToNat (l1 ++ l2)
      = digitsToNat l1 * 10 ^ l2.length + digitsToNat l2 := by
  show (l1 ++ l2).foldl _ 0 = _
  rw [List.foldl_append, ← digitsToNat_foldl_from]
  rfl

theorem digit_char_toNat (m : Nat) (h : m < 10) :
    (Char.ofNat (48 + m)).toNat = 48 + m :=
  (by decide : ∀ m : Nat, m < 10 → (Char.ofNat (48 + m)).toNat = 48 + m) m h

theorem digit_char_isDigit (m : Nat) (h : m < 10) :
    (Char.ofNat (48 + m)).isDigit = true :=
  (by decide : ∀ m : Nat, m < 10 → (Char.ofNat (48 + m)).isDigit = true) m h

theorem digitsToNat_natDecimalGo (n : Nat) (h : n ≠ 0) :
    digitsToNat (natDecimalGo n []) = n := by
  induction n using Nat.strong_induction_on with
  | _ n ih =>
    by_cases h10 : n < 10
    · rw [natDecimalGo_eq n [] h, Nat.div_eq_of_lt h10, natDecimalGo_zero]
      show 0 * 10 + ((Char.ofNat (48 + n % 10)).toNat - 48) = n
      rw [digit_char_toNat (n % 10) (Nat.mod_lt n (by norm_num))]
      omega
    · rw [natDecimalGo_eq n [] h, natDecimalGo_append, digitsToNat_append]
      have hd : n / 10 ≠ 0 := by omega
      rw [ih (n / 10) (Nat.div_lt_self (Nat.pos_of_ne_zero h) (by norm_num)) hd]
      show n / 10 * 10 ^ 1 + (0 * 10 + ((Char.ofNat (48 + n % 10)).toNat - 48)) = n
      rw [digit_char_toNat (n % 10) (Nat.mod_lt n (by norm_num))]
      omega

theorem digitsToNat_natDecimal (n : Nat) : digitsToNat (natDecimal n) = n := by
  by_cases h : n = 0
  · subst h; decide
  · simp only [natDecimal, if_neg h]
    exact digitsToNat_natDecimalGo n h

theorem natDecimal_ne_nil (n : Nat) : natDecimal n ≠ [] := by
  by_cases h : n = 0
  · subst h; decide
  · simp only [natDecimal, if_neg h]
    rw [natDecimalGo_eq n [] h, natDecimalGo_append]
    simp

theorem natDecimalGo_digits (n : Nat) : ∀ acc : List Char,
    (∀ c ∈ acc, c.isDigit = true) → ∀ c ∈ natDecimalGo n acc, c.isDigit = true := by
  induction n using Nat.strong_induction_on with
  | _ n ih =>
    intro acc hacc c hc
    by_cases h : n = 0
    · subst h; rw [natDecimalGo_zero] at hc; exact hacc c hc
    · rw [natDecimalGo_eq n acc h] at hc
      refine ih (n / 10) (Nat.div_lt_self (Nat.pos_of_ne_zero h) (by norm_num))
        _ ?_ c hc
      intro x hx
      rcases List.mem_cons.mp hx with rfl | hx2
      · exact digit_char_isDigit (n % 10) (Nat.mod_lt n (by norm_num))
      · exact hacc x hx2

theorem natDecimal_digits (n : Nat) : ∀ c ∈ natDecimal n, c.isDigit = true := by
  by_cases h : n = 0
  · subst h; decide
  · simp only [natDecimal, if_neg h]
    exact natDecimalGo_digits n [] (by simp)

theorem isDigit_not_lineTerm (c : Char) (h : c.isDigit = true) :
    jsLineTerm c = false := by
  simp only [jsLineTerm, Bool.or_eq_false_iff, beq_eq_false_iff_ne, ne_eq]
  refine ⟨⟨⟨?_, ?_⟩, ?_⟩, ?_⟩ <;> (intro he; subst he; exact absurd h (by decide))


/-! ### Classification of lines by their leading characters -/

theorem parseDayHeader_nil : parseDayHeader [] = none := rfl

theorem parseDayHeader_hash3 (rest : List Char) :
    parseDayHeader ('#' :: '#' :: '#' :: rest) = none := rfl

theorem parseDayHeader_dash (rest : List Char) :
    parseDayHeader ('-' :: rest) = none := rfl

theorem parseDayHeader_gt (rest : List Char) :
    parseDayHeader ('>' :: rest) = none := rfl

theorem parseColumnHeader_dash (rest : List Char) :
    parseColumnHeader ('-' :: rest) = none := rfl

theorem parseColumnHeader_gt (rest : List Char) :
    parseColumnHeader ('>' :: rest) = none := rfl

theorem parseColumnHeader_nil : parseColumnHeader [] = none := rfl

theorem parseTaskLine_hash (rest : List Char) :
    parseTaskLine ('#' :: rest) = none := rfl

theorem parseTaskLine_gt (rest : List Char) :
    parseTaskLine ('>' :: rest) = none := rfl

theorem parseTaskLine_nil : parseTaskLine [] = none := rfl

theorem parseFocusLine_hash (rest : List Char) :
    parseFocusLine ('#' :: rest) = none := rfl

theorem parseFocusLine_dash (rest : List Char) :
    parseFocusLine ('-' :: rest) = none := rfl

theorem parseFocusLine_nil : parseFocusLine [] = none := rfl

theorem isDate10_length (l : List Char) (h : isDate10 l = true) :
    l.length = 10 := by
  unfold isDate10 at h
  split at h <;> simp_all

theorem isDate10_no_nl (l : List Char) (h : isDate10 l = true) :
    '\n' ∉ l := by
  intro hmem
  unfold isDate10 at h
  split at h
  · next a b c d x e f y g h10 =>
    simp only [Bool.and_eq_true, beq_iff_eq] at h
    obtain ⟨⟨⟨⟨⟨⟨⟨⟨⟨ha, hb⟩, hc⟩, hd⟩, hx⟩, he⟩, hf⟩, hy⟩, hg⟩, hh⟩ := h
    simp only [List.mem_cons, List.not_mem_nil, or_false] at hmem
    rcases hmem with rfl | rfl | rfl | rfl | rfl | rfl | rfl | rfl | rfl | rfl
    · exact absurd ha (by decide)
    · exact absurd hb (by decide)
    · exact absurd hc (by decide)
    · exact absurd hd (by decide)
    · exact absurd hx (by decide)
    · exact absurd he (by decide)
    · exact absurd hf (by decide)
    · exact absurd hy (by decide)
    · exact absurd hg (by decide)
    · exact absurd hh (by decide)
  · exact absurd h (by decide)

/-! ### The parsers accept exactly the generated lines -/

theorem parseDayHeader_gen (date : List Char) (h : isDate10 date = true) :
    parseDayHeader ("## ".toList ++ date ++ " 任务".toList) = some date := by
  have hlen : date.length = 10 := isDate10_length date h
  have hdrop3 : ("## ".toList ++ date ++ " 任务".toList).drop 3
      = date ++ " 任务".toList := by
    rw [List.append_assoc]
    exact List.drop_left "## ".toList _
  have hdrop13 : ("## ".toList ++ date ++ " 任务".toList).drop 13
      = " 任务".toList := by
    have h13 : (13 : ℕ) = 3 + 10 := rfl
    rw [h13, ← List.drop_drop, hdrop3, ← hlen]
    exact List.drop_left date _
  have htake : (("## ".toList ++ date ++ " 任务".toList).drop 3).take 10
      = date := by
    rw [hdrop3, ← hlen]
    exact List.take_left date _
  have hpre : ("## ".toList.isPrefixOf
      ("## ".toList ++ date ++ " 任务".toList)) = true := by
    rw [List.append_assoc]
    exact List.isPrefixOf_iff_prefix.mpr (List.prefix_append _ _)
  simp only [parseDayHeader]
  rw [htake, hdrop13]
  rw [if_pos ⟨hpre, rfl, h⟩]

theorem parseTaskLine_gen (completed : Bool) (text : List Char)
    (hne : text ≠ []) (hsl : singleLine text) :
    parseTaskLine ("- ".toList ++ checkboxFor completed ++ ' ' :: text)
      = some (completed, text) := by
  have hall : (text.all fun c => !jsLineTerm c) = true := by
    rw [List.all_eq_true]
    intro c hc
    rw [hsl c hc]
    rfl
  cases completed
  · show parseTaskLine ("- [ ] ".toList ++ text) = some (false, text)
    have hpre : ("- [x] ".toList.isPrefixOf ("- [ ] ".toList ++ text)) = false := rfl
    have hpre2 : ("- [ ] ".toList.isPrefixOf ("- [ ] ".toList ++ text)) = true :=
      List.isPrefixOf_iff_prefix.mpr (List.prefix_append _ _)
    simp only [parseTaskLine, hpre]
    rw [if_neg (by simp)]
    rw [if_pos ⟨hpre2, hne, hall⟩]
    rfl
  · show parseTaskLine ("- [x] ".toList ++ text) = some (true, text)
    have hpre : ("- [x] ".toList.isPrefixOf ("- [x] ".toList ++ text)) = true :=
      List.isPrefixOf_iff_prefix.mpr (List.prefix_append _ _)
    simp only [parseTaskLine]
    rw [if_pos ⟨hpre, hne, hall⟩]
    rfl

theorem parseFocusLine_gen (fm : Nat) :
    parseFocusLine ("> 专注时间: ".toList ++ natDecimal fm ++ " 分钟".toList)
      = some fm := by
  have hall : ((natDecimal fm).all Char.isDigit) = true := by
    rw [List.all_eq_true]
    exact natDecimal_digits fm
  have hdropPre : ("> 专注时间: ".toList ++ natDecimal fm ++ " 分钟".toList).drop
      ("> 专注时间: ".toList.length) = natDecimal fm ++ " 分钟".toList := by
    rw [List.append_assoc]
    exact List.drop_left "> 专注时间: ".toList _
  have hlen3 : (natDecimal fm ++ " 分钟".toList).length - 3
      = (natDecimal fm).length := by
    simp
  have hpre : ("> 专注时间: ".toList.isPrefixOf
      ("> 专注时间: ".toList ++ natDecimal fm ++ " 分钟".toList)) = true := by
    rw [List.append_assoc]
    exact List.isPrefixOf_iff_prefix.mpr (List.prefix_append _ _)
  simp only [parseFocusLine]
  rw [hdropPre, hlen3, List.take_left, List.drop_left]
  rw [if_pos ⟨hpre, rfl, natDecimal_ne_nil fm, hall⟩]
  rw [digitsToNat_natDecimal]

/-! ### Behaviour of the section-line loop on each generated line shape -/

theorem parseSectionLine_nil (acc : ParseAcc) :
    parseSectionLine acc [] = acc := rfl

theorem parseSectionLine_task (acc : ParseAcc) (completed : Bool)
    (text : List Char) (hne : text ≠ []) (hsl : singleLine text) :
    parseSectionLine acc ("- ".toList ++ checkboxFor completed ++ ' ' :: text)
      = { acc with tasks := acc.tasks ++
          [{ id := "imported".toList, text := text, completed := completed,
             columnTitle := acc.columnTitle }] } := by
  have hcol : parseColumnHeader
      ("- ".toList ++ checkboxFor completed ++ ' ' :: text) = none :=
    parseColumnHeader_dash _
  have hfoc : parseFocusLine
      ("- ".toList ++ checkboxFor completed ++ ' ' :: text) = none :=
    parseFocusLine_dash _
  simp only [parseSectionLine, hcol, parseTaskLine_gen completed text hne hsl,
    hfoc]

theorem parseSectionLine_hash (acc : ParseAcc) (rest : List Char) :
    (parseSectionLine acc ('#' :: rest)).tasks = acc.tasks ∧
    (parseSectionLine acc ('#' :: rest)).focusMinutes = acc.focusMinutes := by
  cases hc : parseColumnHeader ('#' :: rest) <;>
    simp [parseSectionLine, hc, parseTaskLine_hash, parseFocusLine_hash]

theorem parseSectionLine_focusGen (acc : ParseAcc) (fm : Nat) :
    parseSectionLine acc
        ("> 专注时间: ".toList ++ natDecimal fm ++ " 分钟".toList)
      = { acc with focusMinutes := fm } := by
  have hc : parseColumnHeader
      ("> 专注时间: ".toList ++ natDecimal fm ++ " 分钟".toList) = none :=
    parseColumnHeader_gt _
  have ht : parseTaskLine
      ("> 专注时间: ".toList ++ natDecimal fm ++ " 分钟".toList) = none :=
    parseTaskLine_gt _
  simp only [parseSectionLine, hc, ht, parseFocusLine_gen]


/-! ### The section-line loop over the generated body -/

theorem foldl_taskLines (ts : List Task) : ∀ acc : ParseAcc,
    (∀ t ∈ ts, t.text ≠ [] ∧ singleLine t.text) →
    (ts.map taskLineOf).foldl parseSectionLine acc
      = { acc with tasks := acc.tasks ++ ts.map (fun t =>
          { id := "imported".toList, text := t.text, completed := t.completed,
            columnTitle := acc.columnTitle }) } := by
  induction ts with
  | nil => intro acc _; simp
  | cons t ts ih =>
    intro acc h
    have h1 := h t (List.mem_cons_self _ _)
    simp only [List.map_cons, List.foldl_cons, taskLineOf]
    rw [parseSectionLine_task acc t.completed t.text h1.1 h1.2]
    rw [ih _ (fun x hx => h x (List.mem_cons_of_mem _ hx))]
    simp

theorem foldl_focusLines (fm : Nat) (acc : ParseAcc) :
    ((focusLinesOf fm).foldl parseSectionLine acc).tasks = acc.tasks ∧
    ((focusLinesOf fm).foldl parseSectionLine acc).focusMinutes
      = (if 0 < fm then fm else acc.focusMinutes) := by
  by_cases h : 0 < fm
  · simp only [focusLinesOf, if_pos h, List.foldl_cons, List.foldl_nil]
    rw [parseSectionLine_focusGen acc fm, parseSectionLine_nil]
    simp [h]
  · simp [focusLinesOf, h]

theorem foldl_colLines (tasks : List Task)
    (htasks : ∀ t ∈ tasks, t.text ≠ [] ∧ singleLine t.text) :
    ∀ (columns : List Column) (acc : ParseAcc),
      (((columns.flatMap (columnBlock tasks)).foldl parseSectionLine acc).tasks.map
          (fun h => (h.text, h.completed))
        = acc.tasks.map (fun h => (h.text, h.completed))
          ++ (tasksGroupedByColumns tasks columns).map
              (fun t => (t.text, t.completed))) ∧
      ((columns.flatMap (columnBlock tasks)).foldl parseSectionLine acc).focusMinutes
        = acc.focusMinutes := by
  intro columns
  induction columns with
  | nil => intro acc; simp [tasksGroupedByColumns]
  | cons c cs ih =>
    intro acc
    have hgr : tasksGroupedByColumns tasks (c :: cs)
        = tasks.filter (fun t => t.columnId = c.id)
          ++ tasksGroupedByColumns tasks cs := by
      simp [tasksGroupedByColumns]
    simp only [List.flatMap_cons, List.foldl_append]
    by_cases hempty : (tasks.filter (fun t => t.columnId = c.id)).isEmpty = true
    · have hblk : columnBlock tasks c = [] := by
        simp [columnBlock, hempty]
      have hfil : tasks.filter (fun t => t.columnId = c.id) = [] :=
        List.isEmpty_iff.mp hempty
      rw [hblk, hgr, hfil]
      simpa using ih acc
    · have hblk : columnBlock tasks c = ("### ".toList ++ c.title)
          :: ((tasks.filter (fun t => t.columnId = c.id)).map taskLineOf ++ [[]]) := by
        simp [columnBlock, hempty]
      rw [hblk]
      simp only [List.foldl_cons, List.foldl_append, List.foldl_nil]
      have hhd := parseSectionLine_hash acc ('#' :: '#' :: ' ' :: c.title)
      rw [foldl_taskLines _ _
        (fun t ht => htasks t (List.mem_of_mem_filter ht))]
      rw [parseSectionLine_nil]
      obtain ⟨ihl, ihr⟩ := ih
        { parseSectionLine acc ("### ".toList ++ c.title) with
          tasks := (parseSectionLine acc ("### ".toList ++ c.title)).tasks
            ++ (tasks.filter (fun t => t.columnId = c.id)).map (fun t =>
              { id := "imported".toList, text := t.text, completed := t.completed,
                columnTitle := (parseSectionLine acc ("### ".toList ++ c.title)).columnTitle }) }
      rw [ihl, ihr, hgr]
      constructor
      · simp only [List.map_append, List.map_map]
        simp [hhd.1, Function.comp_def]
      · simp [hhd.2]


/-! ### Shape of the generated lines -/

theorem singleLine_no_nl (l : List Char) (h : singleLine l) : '\n' ∉ l := by
  intro hm
  exact absurd (h _ hm) (by decide)

theorem generateDayLines_shape (date : List Char) (tasks : List Task)
    (columns : List Column) (fm : Nat) :
    generateDayLines date tasks columns fm
      = ("## ".toList ++ date ++ " 任务".toList)
        :: ([] :: (columns.flatMap (columnBlock tasks) ++ focusLinesOf fm)) := by
  simp [generateDayLines]

theorem bodyLines_mem (tasks : List Task) (columns : List Column) (fm : Nat)
    (l : List Char)
    (hl : l ∈ ([] : List Char)
        :: (columns.flatMap (columnBlock tasks) ++ focusLinesOf fm)) :
    l = [] ∨ (∃ c ∈ columns, l = "### ".toList ++ c.title) ∨
    (∃ t ∈ tasks, l = taskLineOf t) ∨
    l = "> 专注时间: ".toList ++ natDecimal fm ++ " 分钟".toList := by
  rcases List.mem_cons.mp hl with rfl | hl
  · exact Or.inl rfl
  rcases List.mem_append.mp hl with hl | hl
  · obtain ⟨c, hc, hl⟩ := List.mem_flatMap.mp hl
    by_cases he : (tasks.filter (fun t => t.columnId = c.id)).isEmpty = true
    · rw [columnBlock, if_pos he] at hl
      exact absurd hl (List.not_mem_nil l)
    · rw [columnBlock, if_neg he] at hl
      rcases List.mem_cons.mp hl with rfl | hl
      · exact Or.inr (Or.inl ⟨c, hc, rfl⟩)
      rcases List.mem_append.mp hl with hl | hl
      · obtain ⟨t, ht, rfl⟩ := List.mem_map.mp hl
        exact Or.inr (Or.inr (Or.inl ⟨t, List.mem_of_mem_filter ht, rfl⟩))
      · rcases List.mem_cons.mp hl with rfl | hl
        · exact Or.inl rfl
        · exact absurd hl (List.not_mem_nil l)
  · unfold focusLinesOf at hl
    by_cases h : 0 < fm
    · rw [if_pos h] at hl
      rcases List.mem_cons.mp hl with rfl | hl
      · exact Or.inr (Or.inr (Or.inr rfl))
      · rcases List.mem_cons.mp hl with rfl | hl
        · exact Or.inl rfl
        · exact absurd hl (List.not_mem_nil l)
    · rw [if_neg h] at hl
      exact absurd hl (List.not_mem_nil l)

theorem genLines_no_nl (date : List Char) (tasks : List Task)
    (columns : List Column) (fm : Nat)
    (hdate : isDate10 date = true)
    (htasks : ∀ t ∈ tasks, singleLine t.text)
    (hcols : ∀ c ∈ columns, singleLine c.title) :
    ∀ l ∈ generateDayLines date tasks columns fm, '\n' ∉ l := by
  intro l hl hnl
  rw [generateDayLines_shape] at hl
  rcases List.mem_cons.mp hl with rfl | hl
  · rcases List.mem_append.mp hnl with h | h
    · rcases List.mem_append.mp h with h | h
      · exact absurd h (by decide)
      · exact isDate10_no_nl date hdate h
    · exact absurd h (by decide)
  rcases bodyLines_mem tasks columns fm l hl with rfl | ⟨c, hc, rfl⟩ | ⟨t, ht, rfl⟩ | rfl
  · exact absurd hnl (List.not_mem_nil _)
  · rcases List.mem_append.mp hnl with h | h
    · exact absurd h (by decide)
    · exact singleLine_no_nl _ (hcols c hc) h
  · unfold taskLineOf at hnl
    rcases List.mem_append.mp hnl with h | h
    · rcases List.mem_append.mp h with h | h
      · exact absurd h (by decide)
      · unfold checkboxFor at h
        cases hb : t.completed
        · rw [hb, if_neg (by decide)] at h
          exact absurd h (by decide)
        · rw [hb, if_pos (by decide)] at h
          exact absurd h (by decide)
    · rcases List.mem_cons.mp h with h | h
      · exact absurd h (by decide)
      · exact singleLine_no_nl _ (htasks t ht) h
  · rcases List.mem_append.mp hnl with h | h
    · rcases List.mem_append.mp h with h | h
      · exact absurd h (by decide)
      · have := natDecimal_digits fm '\n' h
        exact absurd this (by decide)
    · exact absurd h (by decide)

theorem body_notDayHeader (tasks : List Task) (columns : List Column) (fm : Nat) :
    ∀ l ∈ ([] : List Char)
        :: (columns.flatMap (columnBlock tasks) ++ focusLinesOf fm),
      notDayHeader l = true := by
  intro l hl
  rcases bodyLines_mem tasks columns fm l hl with rfl | ⟨c, _, rfl⟩ | ⟨t, _, rfl⟩ | rfl
  · rfl
  · have h : parseDayHeader ("### ".toList ++ c.title) = none := parseDayHeader_hash3 _
    unfold notDayHeader
    rw [h]
    rfl
  · have h : parseDayHeader (taskLineOf t) = none := parseDayHeader_dash _
    unfold notDayHeader
    rw [h]
    rfl
  · have h : parseDayHeader
        ("> 专注时间: ".toList ++ natDecimal fm ++ " 分钟".toList) = none :=
      parseDayHeader_gt _
    unfold notDayHeader
    rw [h]
    rfl

/-! ### The split produces exactly one section and its parse -/

theorem groupSections_nonheaders (ls : List (List Char))
    (h : ∀ l ∈ ls, notDayHeader l = true) : groupSections ls = [] := by
  induction ls with
  | nil => rfl
  | cons line rest ih =>
    have hl : parseDayHeader line = none :=
      Option.isNone_iff_eq_none.mp (h line (List.mem_cons_self _ _))
    simp only [groupSections, hl]
    exact ih (fun l hl2 => h l (List.mem_cons_of_mem _ hl2))

theorem groupSections_single (hdr : List Char) (body : List (List Char))
    (d : List Char) (hh : parseDayHeader hdr = some d)
    (hb : ∀ l ∈ body, notDayHeader l = true) :
    groupSections (hdr :: body) = [(d, body)] := by
  simp only [groupSections, hh]
  rw [List.takeWhile_eq_self_iff.mpr hb, groupSections_nonheaders body hb]

theorem parseSection_gen (date : List Char) (tasks : List Task)
    (columns : List Column) (fm : Nat)
    (htasks : ∀ t ∈ tasks, t.text ≠ [] ∧ singleLine t.text) :
    (parseSection date
        ([] :: (columns.flatMap (columnBlock tasks) ++ focusLinesOf fm))).date
      = date ∧
    (parseSection date
        ([] :: (columns.flatMap (columnBlock tasks) ++ focusLinesOf fm))).tasks.map
        (fun h => (h.text, h.completed))
      = (tasksGroupedByColumns tasks columns).map
          (fun t => (t.text, t.completed)) ∧
    (parseSection date
        ([] :: (columns.flatMap (columnBlock tasks) ++ focusLinesOf fm))).focusMinutes
      = fm := by
  unfold parseSection
  simp only [List.foldl_cons, List.foldl_append]
  rw [parseSectionLine_nil]
  have hcol := foldl_colLines tasks htasks columns ⟨[], 0, "未分类".toList⟩
  have hfoc := foldl_focusLines fm
    (List.foldl parseSectionLine ⟨[], 0, "未分类".toList⟩
      (columns.flatMap (columnBlock tasks)))
  refine ⟨trivial, ?_, ?_⟩
  · rw [hfoc.1, hcol.1]
    simp
  · rw [hfoc.2, hcol.2]
    by_cases h : 0 < fm
    · simp [h]
    · simp [h]
      omega

/-! ### Claim C10 -/

/-- Claim C10 states that for every date of the form YYYY-MM-DD, every
column list, every task list whose texts are single non-empty lines,
and every focusMinutes, `parseMarkdownToSnapshots` applied to
`generateDayMarkdown` returns exactly one snapshot with the input date,
the input tasks grouped by column in column order (same text and
completed flags), and the input focusMinutes. This fails when a column
title spans several lines: here the title `T\n- [x] g` injects a ghost
completed task `g` into the parse, so the parsed tasks are
`[(g, true), (a, false)]` while the grouped input tasks are only
`[(a, false)]`, even though all the claim's stated hypotheses (date
shape, single non-empty task texts, matching columnIds) hold. -/
theorem claim_C10_counterexample :
    isDate10 "2024-01-01".toList = true ∧
    (∀ t ∈ [Task.mk "t1".toList "a".toList false 0 none "c".toList],
        t.text ≠ [] ∧ singleLine t.text) ∧
    (∀ t ∈ [Task.mk "t1".toList "a".toList false 0 none "c".toList],
        ∃ c ∈ [Column.mk "c".toList "T\n- [x] g".toList], t.columnId = c.id) ∧
    (parseMarkdownToSnapshots (generateDayMarkdown "2024-01-01".toList
          [Task.mk "t1".toList "a".toList false 0 none "c".toList]
          [Column.mk "c".toList "T\n- [x] g".toList] 0)).map
        (fun s => (s.date, s.tasks.map (fun h => (h.text, h.completed)),
          s.focusMinutes))
      = [("2024-01-01".toList, [("g".toList, true), ("a".toList, false)], 0)] ∧
    ¬ ((parseMarkdownToSnapshots (generateDayMarkdown "2024-01-01".toList
          [Task.mk "t1".toList "a".toList false 0 none "c".toList]
          [Column.mk "c".toList "T\n- [x] g".toList] 0)).map
        (fun s => (s.date, s.tasks.map (fun h => (h.text, h.completed)),
          s.focusMinutes))
      = [("2024-01-01".toList,
          (tasksGroupedByColumns
              [Task.mk "t1".toList "a".toList false 0 none "c".toList]
              [Column.mk "c".toList "T\n- [x] g".toList]).map
            (fun t => (t.text, t.completed)), 0)]) :=
  ⟨by decide, by decide, by decide, by decide, by decide⟩

/-- Claim C10 (amended): with the additional hypothesis that every column
title is a single line, the round trip holds — for every date of the form
YYYY-MM-DD, tasks with single non-empty-line texts, single-line column
titles and any focusMinutes, `parseMarkdownToSnapshots` applied to
`generateDayMarkdown` yields exactly one snapshot carrying the input
date, the input tasks grouped by column in column order with the same
text and completed flags, and the input focusMinutes. (The claim's
columnId-matching hypothesis is not needed: tasks whose columnId matches
no listed column are omitted both from the generated markdown and from
the column-order grouping.) -/
theorem claim_C10_amended (date : List Char) (tasks : List Task)
    (columns : List Column) (fm : Nat)
    (hdate : isDate10 date = true)
    (htasks : ∀ t ∈ tasks, t.text ≠ [] ∧ singleLine t.text)
    (hcols : ∀ c ∈ columns, singleLine c.title) :
    (parseMarkdownToSnapshots (generateDayMarkdown date tasks columns fm)).map
        (fun s => (s.date, s.tasks.map (fun h => (h.text, h.completed)),
          s.focusMinutes))
      = [(date,
          (tasksGroupedByColumns tasks columns).map
            (fun t => (t.text, t.completed)), fm)] := by
  have hnn := genLines_no_nl date tasks columns fm hdate
    (fun t ht => (htasks t ht).2) hcols
  have hne : generateDayLines date tasks columns fm ≠ [] := by
    rw [generateDayLines_shape]
    exact List.cons_ne_nil _ _
  unfold parseMarkdownToSnapshots generateDayMarkdown
  rw [splitNl_joinNl _ hne hnn, generateDayLines_shape,
    groupSections_single _ _ date (parseDayHeader_gen date hdate)
      (body_notDayHeader tasks columns fm)]
  have hps := parseSection_gen date tasks columns fm htasks
  simp only [List.map_cons, List.map_nil]
  rw [hps.1, hps.2.1, hps.2.2]

/-- Witness for the amended C10 theorem at a concrete single-line input. -/
theorem claim_C10_witness :
    isDate10 "2024-01-01".toList = true ∧
    (parseMarkdownToSnapshots (generateDayMarkdown "2024-01-01".toList
          [Task.mk "t1".toList "a".toList false 0 none "c".toList]
          [Column.mk "c".toList "Todo".toList] 5)).map
        (fun s => (s.date, s.tasks.map (fun h => (h.text, h.completed)),
          s.focusMinutes))
      = [("2024-01-01".toList,
          (tasksGroupedByColumns
              [Task.mk "t1".toList "a".toList false 0 none "c".toList]
              [Column.mk "c".toList "Todo".toList]).map
            (fun t => (t.text, t.completed)), 5)] :=
  ⟨by decide,
    claim_C10_amended "2024-01-01".toList
      [Task.mk "t1".toList "a".toList false 0 none "c".toList]
      [Column.mk "c".toList "Todo".toList] 5
      (by decide) (by decide) (by decide)⟩

end Markdown
